import Mathlib

/-!
Verification of the markdown / link-classification core of the
`godot-asset-uploader` repository, shallowly embedded in Lean.

The embedding covers:
* `src/godot_asset_uploader/util.py` — URL classification and YouTube
  canonicalisation (`is_interesting_link`, `is_image_link`,
  `normalise_youtube_link`, `normalise_video_link`), together with the parts
  of the external `yarl.URL` library those functions rely on (URL splitting,
  query parsing, `suffixes`), modelled from yarl's documented behaviour.
* `src/godot_asset_uploader/markdown.py` — the `ExtendedAutoLink.find`
  matcher, the suppression-aware `Renderer` (its `maybe_render` /
  `__getattribute__` interception, the `delegated` callback protocol and
  `render_directive`), and `get_asset_description`.

Strings are processed as `List Char` internally; `String` wrappers are kept
at the API boundary so statements read like the Python API.
-/

namespace Gdau

abbrev Chars := List Char

/-- Split a character list on a separator (like Python's `str.split(sep)`):
always returns at least one group. -/
def splitOnChar (sep : Char) : Chars → List Chars
  | [] => [[]]
  | c :: rest =>
    match splitOnChar sep rest with
    | [] => [[]]
    | g :: gs => if c = sep then [] :: g :: gs else (c :: g) :: gs

/-! ### Model of the `yarl.URL` library (external collaborator of util.py)

`util.py` and `markdown.py` manipulate URLs exclusively through `yarl.URL`.
We model the parts they use: splitting an URL reference into scheme / host /
path / query / fragment, percent-decoding, query-string parsing into an
association list (first occurrence wins on lookup, like a `MultiDict`),
`with_query` / `update_query`, and the `suffixes` property (same algorithm as
`pathlib.PurePath.suffixes`).  `+` as a space in query strings and non-ASCII
host normalisation (IDNA) are not modelled; no input in this development
uses them. -/

def hexVal (c : Char) : Option Nat :=
  if '0' ≤ c ∧ c ≤ '9' then some (c.toNat - '0'.toNat)
  else if 'a' ≤ c ∧ c ≤ 'f' then some (c.toNat - 'a'.toNat + 10)
  else if 'A' ≤ c ∧ c ≤ 'F' then some (c.toNat - 'A'.toNat + 10)
  else none

def hexPair (h1 h2 : Char) : Option Char :=
  match hexVal h1, hexVal h2 with
  | some a, some b => some (Char.ofNat (16 * a + b))
  | _, _ => none

def percentDecode : Chars → Chars
  | [] => []
  | '%' :: h1 :: h2 :: rest2 =>
    match hexPair h1 h2 with
    | some c => c :: percentDecode rest2
    | none => '%' :: percentDecode (h1 :: h2 :: rest2)
  | c :: rest => c :: percentDecode rest

/-- Parse a raw query string the way yarl does: split on `&`, split each part
on the first `=`, percent-decode keys and values. -/
def parseQueryString (q : Chars) : List (Chars × Chars) :=
  if q = [] then []
  else (splitOnChar '&' q).map fun part =>
    (percentDecode (part.takeWhile (fun c => !(c = '='))),
     percentDecode ((part.dropWhile (fun c => !(c = '='))).drop 1))

/-- Lookup of a query key; `MultiDict.__getitem__` returns the first value. -/
def lookupQ (q : List (Chars × Chars)) (k : Chars) : Option Chars :=
  (q.find? (fun kv => kv.1 = k)).map (·.2)

/-- `URL.update_query(mapping)`: values of existing keys are replaced in
place, new keys are appended (duplicate-key edge cases of `MultiDict` are not
exercised by this development). -/
def updateQuery (old new : List (Chars × Chars)) : List (Chars × Chars) :=
  (old.map fun kv =>
    match lookupQ new kv.1 with
    | some v => (kv.1, v)
    | none => kv) ++
  new.filter (fun kv => (lookupQ old kv.1).isNone)

structure Url where
  scheme : Chars
  host : Chars
  path : Chars
  query : List (Chars × Chars)
  fragment : Chars
  deriving Repr, DecidableEq, Inhabited

def splitPathQuery (s : Chars) : Chars × Chars :=
  (s.takeWhile (fun c => !(c = '?')), (s.dropWhile (fun c => !(c = '?'))).drop 1)

/-- `yarl.URL(string)`: split an URL reference into components.  The host is
lowercased (yarl's host normalisation on ASCII hosts), userinfo and port are
stripped from the authority, the path is percent-decoded and defaults to
`/` when an authority is present but the path is empty (yarl's `URL.path`). -/
def parseUrlChars (s : Chars) : Url :=
  let beforeFrag := s.takeWhile (fun c => !(c = '#'))
  let frag := (s.dropWhile (fun c => !(c = '#'))).drop 1
  let pre := beforeFrag.takeWhile (fun c => !(c = ':' ∨ c = '/' ∨ c = '?'))
  let rest := beforeFrag.dropWhile (fun c => !(c = ':' ∨ c = '/' ∨ c = '?'))
  match rest with
  | ':' :: r =>
    if r.take 2 = ['/', '/'] then
      let afterSlashes := r.drop 2
      let authority := afterSlashes.takeWhile (fun c => !(c = '/' ∨ c = '?'))
      let tail := afterSlashes.dropWhile (fun c => !(c = '/' ∨ c = '?'))
      let hostPort :=
        if authority.contains '@'
        then (authority.dropWhile (fun c => !(c = '@'))).drop 1
        else authority
      let host := (hostPort.takeWhile (fun c => !(c = ':'))).map Char.toLower
      let pq := splitPathQuery tail
      { scheme := pre, host := host,
        path := if pq.1 = [] then ['/'] else percentDecode pq.1,
        query := parseQueryString pq.2, fragment := frag }
    else
      let pq := splitPathQuery r
      { scheme := pre, host := [], path := percentDecode pq.1,
        query := parseQueryString pq.2, fragment := frag }
  | _ =>
    let pq := splitPathQuery beforeFrag
    { scheme := [], host := [], path := percentDecode pq.1,
      query := parseQueryString pq.2, fragment := frag }

/-- Python's `str.strip(c)` specialised to a single character. -/
def stripChar (c : Char) (s : Chars) : Chars :=
  ((s.dropWhile (fun d => d = c)).reverse.dropWhile (fun d => d = c)).reverse

/-- Python's `s.split("/")[-1]`: the characters after the last `/`. -/
def lastSegment (s : Chars) : Chars :=
  (s.reverse.takeWhile (fun c => !(c = '/'))).reverse

def endsWithChars (s suffix : Chars) : Bool :=
  suffix.reverse.isPrefixOf s.reverse

/-- `yarl.URL.suffixes`: the dot-suffixes of the last path segment, with
pathlib's rules (a name ending in `.` has none; leading dots are ignored). -/
def urlSuffixes (u : Url) : List Chars :=
  let name := lastSegment u.path
  if name.getLast? = some '.' then []
  else
    ((splitOnChar '.' (name.dropWhile (fun c => c = '.'))).drop 1).map
      (fun suf => '.' :: suf)

/-- yarl percent-encodes query values in `with_query`; characters outside the
safe set are escaped.  All inputs proved about stay inside the safe set. -/
def querySafeChar (c : Char) : Bool :=
  c.isAlphanum || c = '-' || c = '.' || c = '_' || c = '~'

def hexDigit (n : Nat) : Char :=
  if n < 10 then Char.ofNat ('0'.toNat + n) else Char.ofNat ('A'.toNat + n - 10)

def queryQuote (s : Chars) : Chars :=
  s.flatMap fun c =>
    if querySafeChar c then [c] else ['%', hexDigit (c.toNat / 16), hexDigit (c.toNat % 16)]

/-! ### `src/godot_asset_uploader/util.py` -/

def VIDEO_EXTS : List Chars :=
  [".mp4", ".mov", ".mkv", ".webm", ".avi", ".ogv", ".ogg"].map String.toList

def IMAGE_EXTS : List Chars :=
  [".jpg", ".png", ".webp", ".gif"].map String.toList

def YOUTUBE_DOMAINS : List Chars :=
  ["youtube.com", "youtube-nocookie.com"].map String.toList

/-- `is_interesting_link(href)`.  The scheme-less case calls
`email.utils.parseaddr` and checks the result for `@`; for the plain href
strings exercised here (no display-name or angle-bracket syntax) `parseaddr`
returns the path itself, so the check reduces to `@` membership in the
path. -/
def is_interesting_link (href : String) : Bool :=
  let uri := parseUrlChars href.toList
  if uri.scheme ≠ [] ∧ ¬(uri.scheme = "http".toList ∨ uri.scheme = "https".toList) then
    false
  else if uri.scheme = [] ∧ uri.path.contains '@' then
    false
  else
    true

/-- `is_image_link(href)`: the (case-insensitively lowered) path ends with
one of the image extensions. -/
def is_image_link (href : String) : Bool :=
  let uri := parseUrlChars href.toList
  uri.path ≠ [] ∧
    IMAGE_EXTS.any (fun ext => endsWithChars (uri.path.map Char.toLower) ext)

def YT_WATCH_STEM : Chars := "https://youtube.com/watch?v=".toList

/-- `str(YOUTUBE_URL.with_query(v=v))`. -/
def canonicalChars (v : Chars) : Chars := YT_WATCH_STEM ++ queryQuote v

/-- `normalise_youtube_link(href)`, recursion made explicit with fuel.
The Python recursion depth equals the `oembed`/`youtu.be` nesting depth of
the input (at most two for any real YouTube URL); the fuel used at the API
entry point is far above it.  `False` returns (from the `and` short-circuits)
and `None` returns are both mapped to `none`, matching how every caller
treats the result (by truthiness). -/
def normYoutubeUrl : Nat → Url → Option Chars
  | 0, _ => none
  | fuel + 1, uri =>
    let viaYoutuBe : Option Chars :=
      -- the trailing `if uri.host.endswith("youtu.be")` block, reached when
      -- no youtube.com/youtube-nocookie.com path shape returned
      if endsWithChars uri.host "youtu.be".toList then
        normYoutubeUrl fuel
          { scheme := "https".toList, host := "youtube.com".toList,
            path := "/watch".toList,
            query := updateQuery (parseQueryString ("v=".toList ++ uri.path.drop 1))
                       uri.query,
            fragment := [] }
      else none
    if uri.scheme ≠ [] ∧ (uri.scheme = "http".toList ∨ uri.scheme = "https".toList) then
      let path := stripChar '/' uri.path
      if YOUTUBE_DOMAINS.any (fun d => endsWithChars uri.host d) then
        if path = "oembed".toList then
          match lookupQ uri.query "url".toList with
          | some u => normYoutubeUrl fuel (parseUrlChars u)
          | none => none
        else if path = "watch".toList ∨ path = "embed".toList then
          match lookupQ uri.query "v".toList with
          | some v => some (canonicalChars v)
          | none => none
        else if ["watch", "embed", "v", "e", "live", "shorts"].any
            (fun x => (x.toList ++ ['/']).isPrefixOf path) then
          some (canonicalChars (lastSegment path))
        else viaYoutuBe
      else viaYoutuBe
    else none

def NORM_FUEL : Nat := 16

def normalise_youtube_link (href : String) : Option String :=
  (normYoutubeUrl NORM_FUEL (parseUrlChars href.toList)).map fun l => ⟨l⟩

/-- `normalise_video_link(href)`: YouTube canonicalisation first, then the
extension fallback, which intersects the *set of all dot-suffixes* of the
path's final segment (`uri.suffixes`, pathlib semantics) with `VIDEO_EXTS`. -/
def normalise_video_link (href : String) : Option String :=
  match normalise_youtube_link href with
  | some out => some out
  | none =>
    let uri := parseUrlChars href.toList
    if uri.path ≠ [] ∧ (urlSuffixes uri).any (fun s => VIDEO_EXTS.contains s) then
      some href
    else
      none

def is_youtube_link (href : String) : Bool :=
  (normalise_youtube_link href).isSome

/-! ### `markdown.py`: `ExtendedAutoLink.find`

The GFM extended-autolink matcher.  The compiled pattern is
`(?:^|[\s*_~(])(http(s)?://[^\s\a\b\f\n\r\t\v<>]+)`: a candidate starts at
the beginning of the string or after whitespace/`*_~(`, and greedily takes
the maximal run of characters outside the excluded class.  `finditer`
resumes scanning after each (non-overlapping) whole match. -/

def urlRunChar (c : Char) : Bool :=
  !(c = ' ' ∨ c = '\t' ∨ c = '\n' ∨ c = '\r' ∨ c = '\x0b' ∨ c = '\x0c' ∨
    c = '\x07' ∨ c = '\x08' ∨ c = '<' ∨ c = '>')

def autolinkHeadChar (c : Char) : Bool :=
  c = ' ' ∨ c = '\t' ∨ c = '\n' ∨ c = '\r' ∨ c = '\x0b' ∨ c = '\x0c' ∨
  c = '*' ∨ c = '_' ∨ c = '~' ∨ c = '('

/-- Try to match `http(s)?://[^...]+` starting exactly here: the greedy run
must extend past the `//`. -/
def tryHttpRun (l : Chars) : Option (Chars × Chars) :=
  let run := l.takeWhile urlRunChar
  if ("http://".toList.isPrefixOf run ∧ run.length > 7) ∨
     ("https://".toList.isPrefixOf run ∧ run.length > 8)
  then some (run, l.dropWhile urlRunChar) else none

/-- `pattern.finditer` positions and group-1 texts, left to right.
`prev` is the character before the current position (`none` at the start).
Every step consumes at least one character, so running the scanner with the
input's length as fuel never hits the (unreachable) fuel-exhaustion base
case; fuel keeps the recursion structural. -/
def scanAutolinksF : Nat → Option Char → Nat → Chars → List (Nat × Chars)
  | 0, _, _, _ => []
  | fuel + 1, prev, i, l =>
    match l with
    | [] => []
    | c :: rest =>
      let posOk := match prev with | none => true | some p => autolinkHeadChar p
      if posOk then
        match tryHttpRun (c :: rest) with
        | some (run, rest2) =>
          (i, run) :: scanAutolinksF fuel run.getLast? (i + run.length) rest2
        | none => scanAutolinksF fuel (some c) (i + 1) rest
      else scanAutolinksF fuel (some c) (i + 1) rest

def scanAutolinks (prev : Option Char) (i : Nat) (l : Chars) : List (Nat × Chars) :=
  scanAutolinksF l.length prev i l

structure AutoLinkMatch where
  start : Nat
  stop : Nat
  content : String
  deriving Repr, DecidableEq

inductive RenderErr where
  | gdAssetChangelogMissing               -- GdAssetError: changelog file not found
  | gdAssetChangelogNoList                -- GdAssetError: changelog has no list
  | gdAssetUnsupportedDirective (tag : String)
  | keyError (key : String)               -- Python KeyError
  | valueError                            -- Python ValueError (int() failure)
  | attributeError (what : String)        -- Python AttributeError
  | outOfFuel                             -- artefact of the embedding only:
                                          -- unbounded changelog re-entry
  deriving Repr, DecidableEq

def rstripChars (cutset : Chars) (s : Chars) : Chars :=
  (s.reverse.dropWhile (fun c => cutset.contains c)).reverse

/-- Model of the external `validator_collection.checkers.is_url` predicate,
restricted to the structure the inputs of this development exercise: an
absolute URL with an http(s)/ftp scheme and a nonempty dotted host. -/
def is_url (href : String) : Bool :=
  let uri := parseUrlChars href.toList
  (uri.scheme = "http".toList ∨ uri.scheme = "https".toList ∨
    uri.scheme = "ftp".toList) ∧
  uri.host ≠ [] ∧ uri.host.contains '.'

/-- The per-candidate trimming loop of `ExtendedAutoLink.find`.

Two slips of the source are modelled faithfully:
* the unmatched-paren counter sums `-1 if c == "(" else -1`, i.e. `-1` for
  *both* kinds of parenthesis, so it equals minus the total number of
  parens and `unmatched < 0` holds whenever any paren is present;
* the entity-reference strip calls `cand.search(cls.entity_ref_pattern)`,
  but `cand` is a `str`, which has no `search` method, so reaching that
  branch raises `AttributeError`. -/
def findTrimFold : List (Nat × Chars) → Except RenderErr (List AutoLinkMatch)
  | [] => .ok []
  | (i, grp) :: rest =>
    let cand0 := rstripChars "?!.,:*_~".toList grp
    let cand :=
      if cand0.getLast? = some ')' then
        let unmatched : Int :=
          (cand0.filter (fun c => c = '(' ∨ c = ')')).foldl (fun a _ => a - 1) 0
        if unmatched < 0 then cand0.take (cand0.length - (-unmatched).toNat)
        else cand0
      else cand0
    if cand.getLast? = some ';' then
      .error (.attributeError "str object has no attribute search")
    else if is_url ⟨cand⟩ then
      match findTrimFold rest with
      | .ok ms => .ok ({ start := i, stop := i + cand.length, content := ⟨cand⟩ } :: ms)
      | .error e => .error e
    else findTrimFold rest

/-- `ExtendedAutoLink.find(string)`. -/
def extendedAutoLinkFind (s : String) : Except RenderErr (List AutoLinkMatch) :=
  findTrimFold (scanAutolinks none 0 s.toList)

/-! ### `markdown.py`: document model and the suppression-aware `Renderer`

Tokens carry a numeric `id` modelling Python object identity: the
`suppressed` list stores tokens by identity (`in` / `list.remove` use
object equality for these token classes).  All ids in a document are
distinct, as distinct live Python objects are.

Which renderer methods are wrapped by `Renderer.__getattribute__` /
`maybe_render` is decided by `name not in type(self).__dict__`:
`render_image`, `render_link`, `render_auto_link`,
`render_extended_auto_link`, `render_html_span`, `render_html_block`,
`render_markdown_directive` and `render_directive` are defined on
`Renderer` itself and are NOT wrapped; every renderer method inherited from
`MarkdownRenderer` (document, paragraph, heading, blank line, list, list
item, raw text, ...) IS wrapped.  Span renderers are only ever entered with
an empty suppression set (suppression is toggled between sibling blocks
only), so the wrap on `render_raw_text` is the identity there and span
rendering is modelled unwrapped. -/

structure Meta where
  tag : String
  value : Option String := none
  attrs : List (String × String) := []
  deriving Repr, DecidableEq

inductive Span where
  | rawText (content : String)
  | image (src : String) (alt : List Span)
  | link (target : String) (children : List Span)
  | autoLink (target : String)
  | extAutoLink (target : String)
  | htmlSpan (content : String)
  deriving Repr

inductive Block where
  | paragraph (id : Nat) (children : List Span)
  | heading (id : Nat) (level : Nat) (children : List Span)
  | blankLine (id : Nat)
  | list (id : Nat) (items : List Block)
  | listItem (id : Nat) (children : List Block)
  | directive (id : Nat) (item : Meta)
  | markdownDirective (id : Nat) (children : List Block)
  | htmlBlock (id : Nat) (content : String)
  deriving Repr

def Block.tokenId : Block → Nat
  | .paragraph id _ => id
  | .heading id _ _ => id
  | .blankLine id => id
  | .list id _ => id
  | .listItem id _ => id
  | .directive id _ => id
  | .markdownDirective id _ => id
  | .htmlBlock id _ => id

/-- The renderer methods intercepted by `__getattribute__` (inherited from
`MarkdownRenderer`, hence wrapped in `maybe_render`). -/
def Block.isWrapped : Block → Bool
  | .paragraph _ _ => true
  | .heading _ _ _ => true
  | .blankLine _ => true
  | .list _ _ => true
  | .listItem _ _ => true
  | .directive _ _ => false
  | .markdownDirective _ _ => false
  | .htmlBlock _ _ => false

structure Document where
  id : Nat
  children : List Block
  deriving Repr

structure Preview where
  ptype : String
  link : String
  deriving Repr, DecidableEq

structure RState where
  suppressed : List Nat
  previews : List Preview
  deriving Repr, DecidableEq

def initState : RState := { suppressed := [], previews := [] }

/-- The three-valued result protocol of the `delegated` callbacks:
Python `True`, `None` (or another falsy non-list value), or a list of
replacement fragments. -/
inductive CbResult where
  | tru
  | skip
  | frags (fs : List String)
  deriving Repr

structure Callbacks where
  imageCb : Option (Span → RState → RState × CbResult) := none
  linkCb : Option (Span → RState → RState × CbResult) := none
  -- `process_html` ignores its token argument, so the HTML callback is
  -- modelled without it
  htmlCb : Option (RState → RState × CbResult) := none

/-- The configuration state consumed by the renderer: whether
`config.changelog` exists, the parsed top-level children of the changelog
document, and the two rendering flags (defaults from `config.Config`). -/
structure Config where
  changelogExists : Bool := false
  changelogDoc : List Block := []
  unwrap_links : Bool := true
  preserve_html : Bool := false

/-- `Renderer.suppress`: append if not already present. -/
def suppressTok (l : List Nat) (tid : Nat) : List Nat :=
  if l.contains tid then l else l ++ [tid]

/-- `Renderer.maybe_render(method, token)`: skip the subtree entirely when
the suppression set is non-empty, and in all cases (`finally`) drop this
very token from the set.  On an exception the exception propagates (the
mutated renderer state is discarded by every caller).  `res` is the value
the wrapped method would produce from the current state; when the set is
non-empty it is ignored, which in this pure embedding is the same as not
running the method at all. -/
def maybeRender (st : RState) (tid : Nat)
    (res : Except RenderErr (RState × List String)) :
    Except RenderErr (RState × List String) :=
  if st.suppressed = [] then
    match res with
    | .ok (st', out) => .ok ({ st' with suppressed := st'.suppressed.erase tid }, out)
    | .error e => .error e
  else
    .ok ({ st with suppressed := st.suppressed.erase tid }, [])

/-- Outcome of the `delegated(callback_name)` wrapper before the default
render: either fall through to the inherited default render (from the
possibly callback-updated state), or finish with the given output. -/
inductive DelegateStep where
  | renderDefault (st : RState)
  | done (st : RState) (out : List String)

/-- The common `delegated(callback_name)` decision: consult the callback,
then render by the inherited default (only when the suppression set is
empty), emit the replacement fragments, or emit nothing. -/
def delegatedSpan (cb : Option (Span → RState → RState × CbResult)) (st : RState)
    (tok : Span) : DelegateStep :=
  match cb with
  | none => if st.suppressed = [] then .renderDefault st else .done st []
  | some f =>
    match f tok st with
    | (st', .tru) => if st'.suppressed = [] then .renderDefault st' else .done st' []
    | (st', .skip) => .done st' []
    | (st', .frags fs) => .done st' fs

def delegatedHtml (cb : Option (RState → RState × CbResult)) (st : RState)
    (dflt : RState → Except RenderErr (RState × List String)) :
    Except RenderErr (RState × List String) :=
  match cb with
  | none => if st.suppressed = [] then dflt st else .ok (st, [])
  | some f =>
    match f st with
    | (st', .tru) => if st'.suppressed = [] then dflt st' else .ok (st', [])
    | (st', .skip) => .ok (st', [])
    | (st', .frags fs) => .ok (st', fs)

/-- `MarkdownRenderer` line assembly (external library): fragments are
concatenated, split into lines at newlines, and the trailing partial line is
flushed only when non-empty. -/
def linesOf (cs : Chars) : List String :=
  let gs := splitOnChar '\n' cs
  (if gs.getLast? = some [] then gs.dropLast else gs).map fun g => ⟨g⟩

def fragmentsToLines (frags : List String) : List String :=
  linesOf (String.join frags).toList

mutual

/-- Span rendering (`make_fragments` dispatch).  The default renders are the
`MarkdownRenderer` ones; `render_extended_auto_link` has no inherited
default (`MarkdownRenderer` defines no such method), so taking that branch
raises `AttributeError`. -/
def renderSpan (cbs : Callbacks) (st : RState) (tok : Span) :
    Except RenderErr (RState × List String) :=
  match tok with
  | .rawText s => .ok (st, [s])
  | .image src alt =>
    (match delegatedSpan cbs.imageCb st (.image src alt) with
     | .done st' out => .ok (st', out)
     | .renderDefault st' =>
       match renderSpans cbs st' alt with
       | .ok (st2, inner) => .ok (st2, ["![" ++ String.join inner ++ "](" ++ src ++ ")"])
       | .error e => .error e)
  | .link target children =>
    (match delegatedSpan cbs.linkCb st (.link target children) with
     | .done st' out => .ok (st', out)
     | .renderDefault st' =>
       match renderSpans cbs st' children with
       | .ok (st2, inner) => .ok (st2, ["[" ++ String.join inner ++ "](" ++ target ++ ")"])
       | .error e => .error e)
  | .autoLink target =>
    (match delegatedSpan cbs.linkCb st (.autoLink target) with
     | .done st' out => .ok (st', out)
     | .renderDefault st' => .ok (st', ["<" ++ target ++ ">"]))
  | .extAutoLink target =>
    -- `MarkdownRenderer` has no `render_extended_auto_link`, so the default
    -- branch of the `delegated` wrapper raises `AttributeError`
    (match delegatedSpan cbs.linkCb st (.extAutoLink target) with
     | .done st' out => .ok (st', out)
     | .renderDefault _ =>
       .error (.attributeError "super object has no attribute render_extended_auto_link"))
  | .htmlSpan content =>
    delegatedHtml cbs.htmlCb st fun st => .ok (st, [content])

def renderSpans (cbs : Callbacks) (st : RState) (toks : List Span) :
    Except RenderErr (RState × List String) :=
  match toks with
  | [] => .ok (st, [])
  | t :: ts =>
    match renderSpan cbs st t with
    | .ok (st1, f1) =>
      match renderSpans cbs st1 ts with
      | .ok (st2, f2) => .ok (st2, f1 ++ f2)
      | .error e => .error e
    | .error e => .error e

end

def attrsGet (attrs : List (String × String)) (k : String) : Option String :=
  (attrs.find? (fun kv => kv.1 = k)).map (·.2)

/-- The first `List` among the changelog document's top-level children
(`for child in Document(...).children: if isinstance(child, List)`). -/
def firstList : List Block → Option (Nat × List Block)
  | [] => none
  | .list id items :: _ => some (id, items)
  | _ :: rest => firstList rest

/-- Python `int(s)` for a nonempty digit string; anything else raises
`ValueError` (signs, whitespace and negative slice limits are not exercised
by this development). -/
def parseNatDigits (cs : Chars) : Option Nat :=
  if cs ≠ [] ∧ cs.all Char.isDigit then
    some (cs.foldl (fun n c => n * 10 + (c.toNat - '0'.toNat)) 0)
  else none

/-- `changelog.children = changelog.children[:int(num)]`, guarded by the
walrus truthiness test (`None` and `""` skip the truncation). -/
def truncItems (numAttr : Option String) (items : List Block) :
    Except RenderErr (List Block) :=
  match numAttr with
  | none => .ok items
  | some s =>
    if s = "" then .ok items
    else
      match parseNatDigits s.toList with
      | some n => .ok (items.take n)
      | none => .error .valueError

/-- The heading paragraph built by the changelog branch is a freshly
allocated Python object, distinct by identity from every token in any
suppression set; its model id is a reserved value no document uses. -/
def FRESH_ID : Nat := 1000000

/-- Fuel for the block renderer.  The Python recursion is unbounded in two
ways a shallow embedding must cap: nesting of blocks, and the changelog
directive splicing externally-loaded blocks into the traversal (a changelog
that itself contains a changelog directive diverges in Python).  Fuel is
spent on every recursive step; `.outOfFuel` is an artefact of the embedding
and is never produced at the entry-point fuel for the documents reasoned
about. -/
def RENDER_FUEL : Nat := 1000

mutual

def renderBlocks (cfg : Config) (cbs : Callbacks) : Nat → RState → Nat → List Block →
    Except RenderErr (RState × List String)
  | _, st, _, [] => .ok (st, [])
  | 0, _, _, _ :: _ => .error .outOfFuel
  | fuel + 1, st, pid, b :: rest =>
    match renderBlock cfg cbs fuel st pid b with
    | .ok (st1, ls1) =>
      match renderBlocks cfg cbs fuel st1 pid rest with
      | .ok (st2, ls2) => .ok (st2, ls1 ++ ls2)
      | .error e => .error e
    | .error e => .error e
termination_by structural fuel _ _ _ => fuel

def renderBlock (cfg : Config) (cbs : Callbacks) : Nat → RState → Nat → Block →
    Except RenderErr (RState × List String)
  | fuel, st, pid, b =>
    match b with
    | .paragraph id spans =>
      maybeRender st id
        (match renderSpans cbs st spans with
         | .ok (st', frags) => .ok (st', fragmentsToLines frags)
         | .error e => .error e)
    | .heading id lvl spans =>
      maybeRender st id
        (match renderSpans cbs st spans with
         | .ok (st', frags) =>
           .ok (st', [String.mk (List.replicate lvl '#') ++ " " ++ String.join frags])
         | .error e => .error e)
    | .blankLine id => maybeRender st id (.ok (st, [""]))
    | .list id items =>
      maybeRender st id
        (match fuel with
         | 0 => .error .outOfFuel
         | fuel + 1 => renderBlocks cfg cbs fuel st id items)
    | .listItem id children =>
      maybeRender st id
        (match fuel with
         | 0 => .error .outOfFuel
         | fuel + 1 =>
           match renderBlocks cfg cbs fuel st id children with
           | .ok (st', ls) =>
             .ok (st', match ls with
               | [] => ["- "]
               | l :: rest => ("- " ++ l) :: rest.map (fun l => "  " ++ l))
           | .error e => .error e)
    | .directive id item =>
      match fuel with
      | 0 => .error .outOfFuel
      | fuel + 1 => renderDirective cfg cbs fuel st pid id item
    | .markdownDirective id children =>
      -- render_markdown_directive: unwrapped; renders its pre-parsed blocks
      match fuel with
      | 0 => .error .outOfFuel
      | fuel + 1 => renderBlocks cfg cbs fuel st id children
    | .htmlBlock _ content =>
      delegatedHtml cbs.htmlCb st fun st => .ok (st, [content])
termination_by structural fuel _ _ _ => fuel

/-- `Renderer.render_directive` (unwrapped).  `pid` is `token.parent`'s
identity, `tid` the directive token's own. -/
def renderDirective (cfg : Config) (cbs : Callbacks) : Nat → RState → Nat → Nat → Meta →
    Except RenderErr (RState × List String)
  | fuel, st, pid, tid, item =>
    if item.tag = "changelog" then
      if ¬cfg.changelogExists then .error .gdAssetChangelogMissing
      else
        match firstList cfg.changelogDoc with
        | none => .error .gdAssetChangelogNoList
        | some (lid, items) =>
          -- `par = Paragraph([item.attrs["heading"] + ":"])` runs BEFORE the
          -- `if "heading" in item.attrs` guard: a missing attribute raises
          match attrsGet item.attrs "heading" with
          | none => .error (.keyError "heading")
          | some h =>
            let par : Block := .paragraph FRESH_ID [.rawText (h ++ ":")]
            let toRender :=
              if (attrsGet item.attrs "heading").isSome then [par] else []
            match truncItems (attrsGet item.attrs "items") items with
            | .ok items' =>
              match fuel with
              | 0 => .error .outOfFuel
              | fuel + 1 =>
                -- `token.children = to_render; return self.blocks_to_lines(...)`
                renderBlocks cfg cbs fuel st tid (toRender ++ [.list lid items'])
            | .error e => .error e
    else if item.tag = "exclude" then
      .ok ({ st with suppressed := suppressTok st.suppressed pid }, [])
    else if item.tag = "include" then
      .ok ({ st with suppressed := st.suppressed.erase pid }, [])
    else
      .error (.gdAssetUnsupportedDirective item.tag)
termination_by structural fuel _ _ _ _ => fuel

end

/-- `renderer.render(Document(...))`: the document renderer is itself a
wrapped method. -/
def renderDocument (cfg : Config) (cbs : Callbacks) (fuel : Nat) (st : RState)
    (doc : Document) : Except RenderErr (RState × List String) :=
  maybeRender st doc.id (renderBlocks cfg cbs fuel st doc.id doc.children)

instance : DecidableEq (Except RenderErr (RState × List String)) := fun a b =>
  match a, b with
  | .ok x, .ok y => decidable_of_iff (x = y) (by simp)
  | .error x, .error y => decidable_of_iff (x = y) (by simp)
  | .ok _, .error _ => isFalse (by simp)
  | .error _, .ok _ => isFalse (by simp)

instance : DecidableEq (Except RenderErr (String × List Preview)) := fun a b =>
  match a, b with
  | .ok x, .ok y => decidable_of_iff (x = y) (by simp)
  | .error x, .error y => decidable_of_iff (x = y) (by simp)
  | .ok _, .error _ => isFalse (by simp)
  | .error _, .ok _ => isFalse (by simp)

instance : DecidableEq (Except RenderErr (List AutoLinkMatch)) := fun a b =>
  match a, b with
  | .ok x, .ok y => decidable_of_iff (x = y) (by simp)
  | .error x, .error y => decidable_of_iff (x = y) (by simp)
  | .ok _, .error _ => isFalse (by simp)
  | .error _, .ok _ => isFalse (by simp)

def renderToString (lines : List String) : String :=
  String.join (lines.map (· ++ "\n"))

/-- `get_asset_description(cfg, prep_image_func, prep_link_func)` on an
already-parsed README document.  The callbacks are the closures defined in
the source; note that `process_link` records previews through
`prep_image_func` (not `prep_link_func`, which no callback ever calls). -/
def get_asset_description (cfg : Config)
    (prep_image_func prep_link_func : Option (String → String))
    (readmeDoc : Document) : Except RenderErr (String × List Preview) :=
  let prepImage := prep_image_func.getD (fun x => x)
  let _prepLink := prep_link_func.getD (fun x => x)
  let imageCb : Span → RState → RState × CbResult := fun tok st =>
    match tok with
    | .image src _ =>
      ({ st with previews := st.previews ++ [⟨"image", prepImage src⟩] }, .skip)
    | _ => (st, .skip)
  let unwrapTail : String → RState → RState × CbResult := fun target st =>
    (st, if cfg.unwrap_links then .frags [target] else .tru)
  let linkCb : Span → RState → RState × CbResult := fun tok st =>
    let target :=
      match tok with
      | .link t _ => t
      | .autoLink t => t
      | .extAutoLink t => t
      | _ => ""
    if is_interesting_link target then
      match normalise_video_link target with
      | some href =>
        ({ st with previews := st.previews ++ [⟨"video", prepImage href⟩] }, .skip)
      | none =>
        if is_image_link target then
          ({ st with previews := st.previews ++ [⟨"image", prepImage target⟩] }, .skip)
        else unwrapTail target st
    else unwrapTail target st
  let htmlCb : RState → RState × CbResult := fun st =>
    (st, if cfg.preserve_html then .tru else .skip)
  let cbs : Callbacks := { imageCb := some imageCb, linkCb := some linkCb,
                           htmlCb := some htmlCb }
  match renderDocument cfg cbs RENDER_FUEL initState readmeDoc with
  | .ok (st, lines) => .ok (renderToString lines, st.previews)
  | .error e => .error e

/-! ### Additional definitions used by the statements below -/

/-- Safe characters for the URL building blocks this development splices into
concrete URL shapes: letters, digits, `-`, `_`, `.`. -/
def urlTokenChar (c : Char) : Bool :=
  c.isAlphanum || c = '-' || c = '_' || c = '.'

def idSafeChar (c : Char) : Bool :=
  c.isAlphanum || c = '-' || c = '_'

def isSafeId (id : String) : Bool :=
  !(id = "") && id.toList.all idSafeChar

def youtubeCanonical (id : String) : String := "https://youtube.com/watch?v=" ++ id

/-- The fixed corpus of YouTube URL shapes (path forms carrying the id,
query forms, oembed wrapping, and the youtu.be short-link form with and
without a `?` before trailing parameters). -/
def youtubeCorpus (id : String) : List String :=
  [ "https://youtube.com/watch?v=" ++ id,
    "https://www.youtube.com/watch?v=" ++ id ++ "&feature=em-uploademail",
    "https://youtube.com/watch?feature=player_embedded&v=" ++ id,
    "https://www.youtube.com/watch/" ++ id,
    "https://www.youtube.com/embed/" ++ id,
    "https://www.youtube.com/embed/" ++ id ++ "?rel=0",
    "https://youtube.com/v/" ++ id,
    "https://youtube.com/e/" ++ id,
    "https://www.youtube.com/live/" ++ id,
    "https://www.youtube.com/shorts/" ++ id ++ "?app=desktop",
    "https://www.youtube.com/oembed?url=http%3A//www.youtube.com/watch?v%3D" ++ id ++ "&format=json",
    "https://youtu.be/" ++ id,
    "http://youtu.be/" ++ id ++ "&feature=channel",
    "https://youtu.be/" ++ id ++ "?t=1" ]

def attributionShape (id : String) : String :=
  "https://www.youtube.com/attribution_link?a=8g8kPrPIi-ecwIsS&u=/watch%3Fv%3D" ++ id ++
    "%26feature%3Dem-uploademail"

def c2Doc (xs ys : List String) : Document :=
  { id := 0, children := [
      .directive 1 { tag := "exclude" },
      .paragraph 2 (xs.map .rawText),
      .directive 3 { tag := "include" },
      .paragraph 4 (ys.map .rawText) ] }

def oneShotDoc : Document :=
  { id := 0, children := [
      .directive 1 { tag := "exclude" },
      .paragraph 2 [.rawText "one"],
      .paragraph 4 [.rawText "two"] ] }

def c5Doc : Document :=
  { id := 0, children := [
      .paragraph 1 [.rawText "Hello world."],
      .blankLine 2,
      .paragraph 3 [.image "image.png" [.rawText "alt"]],
      .blankLine 4,
      .paragraph 5 [.extAutoLink "https://www.youtube.com/watch?v=dQw4w9WgXcQ&utm_source=share"] ] }

def changelogListDoc : List Block := [
  .paragraph 20 [.rawText "Title"],
  .list 21 [ .listItem 22 [.paragraph 23 [.rawText "item1"]],
             .listItem 24 [.paragraph 25 [.rawText "item2"]],
             .listItem 26 [.paragraph 27 [.rawText "item3"]] ] ]

def changelogCfg : Config := { changelogExists := true, changelogDoc := changelogListDoc }

def c3NoHeadingDoc : Document :=
  { id := 0, children := [ .directive 1 { tag := "changelog" } ] }

def c3HeadingDoc : Document :=
  { id := 0, children := [
      .directive 1 { tag := "changelog",
                     attrs := [("heading", "Changelog"), ("items", "2")] } ] }

def c4Doc : Document :=
  { id := 0, children := [
      .paragraph 1 [.rawText "before"],
      .directive 2 { tag := "changelog", attrs := [("heading", "Changes")] } ] }

def c9Doc : Document :=
  { id := 0, children := [ .paragraph 1 [.image "http://example.com/a.png" [.rawText "x"]] ] }

/-- A configuration whose changelog document exists but holds no list. -/
def noListCfg : Config :=
  { changelogExists := true, changelogDoc := [.paragraph 50 [.rawText "no list here"]] }

/-! ### General lemmas -/

theorem takeWhile_append_all {p : Char → Bool} {xs ys : Chars} (h : xs.all p) :
    (xs ++ ys).takeWhile p = xs ++ ys.takeWhile p := by
  induction xs with
  | nil => simp
  | cons a t ih =>
    simp only [List.all_cons, Bool.and_eq_true] at h
    simp [List.takeWhile_cons, h.1, ih h.2]

theorem takeWhile_append_allE {p : Char → Bool} {xs : Chars} (ys : Chars)
    (h : xs.all p) : (xs ++ ys).takeWhile p = xs ++ ys.takeWhile p :=
  takeWhile_append_all h

theorem dropWhile_append_all {p : Char → Bool} {xs ys : Chars} (h : xs.all p) :
    (xs ++ ys).dropWhile p = ys.dropWhile p := by
  induction xs with
  | nil => simp
  | cons a t ih =>
    simp only [List.all_cons, Bool.and_eq_true] at h
    simp [List.dropWhile_cons, h.1, ih h.2]

theorem dropWhile_append_allE {p : Char → Bool} {xs : Chars} (ys : Chars)
    (h : xs.all p) : (xs ++ ys).dropWhile p = ys.dropWhile p :=
  dropWhile_append_all h

theorem takeWhile_all {p : Char → Bool} {xs : Chars} (h : xs.all p) :
    xs.takeWhile p = xs := by
  induction xs with
  | nil => simp
  | cons a t ih =>
    simp only [List.all_cons, Bool.and_eq_true] at h
    simp [List.takeWhile_cons, h.1, ih h.2]

theorem dropWhile_all {p : Char → Bool} {xs : Chars} (h : xs.all p) :
    xs.dropWhile p = [] := by
  induction xs with
  | nil => simp
  | cons a t ih =>
    simp only [List.all_cons, Bool.and_eq_true] at h
    simp [List.dropWhile_cons, h.1, ih h.2]

theorem isPrefixOf_append_self {xs ys : Chars} : xs.isPrefixOf (xs ++ ys) = true := by
  induction xs with
  | nil => simp [List.isPrefixOf]
  | cons a t ih => simp [List.isPrefixOf, ih]

theorem splitOnChar_ne_nil (sep : Char) (l : Chars) : splitOnChar sep l ≠ [] := by
  cases l with
  | nil => simp [splitOnChar]
  | cons c rest =>
    simp only [splitOnChar]
    cases h : splitOnChar sep rest with
    | nil => simp
    | cons g gs =>
      by_cases hc : c = sep <;> simp [hc]

theorem splitOnChar_append_no_sep {sep : Char} {xs ys : Chars}
    (h : xs.all (fun c => !(c = sep))) :
    splitOnChar sep (xs ++ ys) =
      match splitOnChar sep ys with
      | [] => [[]]
      | g :: gs => (xs ++ g) :: gs := by
  induction xs with
  | nil =>
    cases hy : splitOnChar sep ys with
    | nil => exact absurd hy (splitOnChar_ne_nil sep ys)
    | cons g gs => simp [hy]
  | cons a t ih =>
    simp only [List.all_cons, Bool.and_eq_true, Bool.not_eq_true', decide_eq_false_iff_not] at h
    have ht : t.all (fun c => !(c = sep)) := by
      simp only [List.all_eq_true] at *
      intro c hc
      simpa using h.2 c hc
    cases hy : splitOnChar sep ys with
    | nil => exact absurd hy (splitOnChar_ne_nil sep ys)
    | cons g gs =>
      have hrec := ih ht
      rw [hy] at hrec
      simp only at hrec
      simp only [List.cons_append, splitOnChar, h.1, List.append_eq]
      rw [hrec]
      simp

theorem splitOnChar_append_no_sepE {sep : Char} {xs : Chars} (ys : Chars)
    (h : xs.all (fun c => !(c = sep))) :
    splitOnChar sep (xs ++ ys) =
      match splitOnChar sep ys with
      | [] => [[]]
      | g :: gs => (xs ++ g) :: gs :=
  splitOnChar_append_no_sep h

theorem splitOnChar_no_sep {sep : Char} {xs : Chars}
    (h : xs.all (fun c => !(c = sep))) : splitOnChar sep xs = [xs] := by
  have := splitOnChar_append_no_sepE [] h
  simpa [splitOnChar] using this

theorem percentDecode_no_percent {xs : Chars} (h : xs.all (fun c => !(c = '%'))) :
    percentDecode xs = xs := by
  induction xs with
  | nil => simp [percentDecode]
  | cons a t ih =>
    simp only [List.all_cons, Bool.and_eq_true, Bool.not_eq_true',
      decide_eq_false_iff_not] at h
    simp [percentDecode, h.1, ih (by simp only [List.all_eq_true] at *; intro c hc; simpa using h.2 c hc)]

theorem queryQuote_safe {xs : Chars} (h : xs.all querySafeChar) :
    queryQuote xs = xs := by
  induction xs with
  | nil => simp [queryQuote]
  | cons a t ih =>
    simp only [List.all_cons, Bool.and_eq_true] at h
    simp only [queryQuote, List.flatMap_cons, h.1, if_pos]
    simpa [queryQuote] using ih h.2

theorem length_dropWhile_le' (p : Char → Bool) (l : Chars) :
    (l.dropWhile p).length ≤ l.length := by
  induction l with
  | nil => simp
  | cons a t ih =>
    by_cases hp : p a = true
    · simp only [List.dropWhile_cons, hp, if_true]
      exact Nat.le_succ_of_le ih
    · simp [List.dropWhile_cons, hp]

theorem length_dropWhile_lt_of_head {p : Char → Bool} {c : Char} {rest : Chars}
    (h : p c = true) : ((c :: rest).dropWhile p).length < (c :: rest).length := by
  simp only [List.dropWhile_cons, h, if_true]
  exact Nat.lt_succ_of_le (length_dropWhile_le' p rest)

theorem all_mono {p q : Char → Bool} (h : ∀ c, p c = true → q c = true) {xs : Chars}
    (hx : xs.all p = true) : xs.all q = true := by
  simp only [List.all_eq_true] at *
  exact fun c hc => h c (hx c hc)

theorem contains_eq_false_of_all {xs : Chars} {a : Char}
    (h : xs.all (fun c => !(c = a)) = true) : xs.contains a = false := by
  simp only [List.all_eq_true, Bool.not_eq_true', decide_eq_false_iff_not] at h
  simp only [List.contains, List.elem_eq_mem, decide_eq_false_iff_not]
  exact fun hmem => h a hmem rfl

theorem urlToken_ne {c bad : Char} (h : urlTokenChar c = true)
    (hbad : urlTokenChar bad = false) : c ≠ bad := by
  intro he
  rw [he, hbad] at h
  exact Bool.noConfusion h

theorem pathSafe_of_token {prest : Chars} (h : prest.all urlTokenChar = true) :
    prest.all (fun c => !(c = '?' ∨ c = '#' ∨ c = '%')) = true :=
  all_mono (fun c hc => by
    have h1 := urlToken_ne hc (show urlTokenChar '?' = false from by decide)
    have h2 := urlToken_ne hc (show urlTokenChar '#' = false from by decide)
    have h3 := urlToken_ne hc (show urlTokenChar '%' = false from by decide)
    simp [h1, h2, h3]) h

theorem parseUrl_split_noq (scheme host prest : Chars)
    (hS : scheme.all urlTokenChar = true)
    (hH : host.all urlTokenChar = true)
    (hP : prest.all (fun c => !(c = '?' ∨ c = '#' ∨ c = '%')) = true) :
    parseUrlChars (scheme ++ ':' :: '/' :: '/' :: (host ++ '/' :: prest)) =
      { scheme := scheme, host := host.map Char.toLower, path := '/' :: prest,
        query := [], fragment := [] } := by
  have hSnoHash : scheme.all (fun c => !(c = '#')) = true :=
    all_mono (fun c hc => by
      have := urlToken_ne hc (show urlTokenChar '#' = false from by decide)
      simp [this]) hS
  have hHnoHash : host.all (fun c => !(c = '#')) = true :=
    all_mono (fun c hc => by
      have := urlToken_ne hc (show urlTokenChar '#' = false from by decide)
      simp [this]) hH
  have hPnoHash : prest.all (fun c => !(c = '#')) = true :=
    all_mono (fun c hc => by
      simp only [Bool.not_eq_true', decide_eq_false_iff_not, not_or] at hc ⊢
      exact hc.2.1) hP
  have hPnoQ : prest.all (fun c => !(c = '?')) = true :=
    all_mono (fun c hc => by
      simp only [Bool.not_eq_true', decide_eq_false_iff_not, not_or] at hc ⊢
      exact hc.1) hP
  have hPnoPct : ('/' :: prest).all (fun c => !(c = '%')) = true := by
    simp only [List.all_cons, Bool.and_eq_true]
    refine ⟨by decide, ?_⟩
    exact all_mono (fun c hc => by
      simp only [Bool.not_eq_true', decide_eq_false_iff_not, not_or] at hc ⊢
      exact hc.2.2) hP
  have hSsch : scheme.all (fun c => !(c = ':' ∨ c = '/' ∨ c = '?')) = true :=
    all_mono (fun c hc => by
      have h1 := urlToken_ne hc (show urlTokenChar ':' = false from by decide)
      have h2 := urlToken_ne hc (show urlTokenChar '/' = false from by decide)
      have h3 := urlToken_ne hc (show urlTokenChar '?' = false from by decide)
      simp [h1, h2, h3]) hS
  have hHauth : host.all (fun c => !(c = '/' ∨ c = '?')) = true :=
    all_mono (fun c hc => by
      have h1 := urlToken_ne hc (show urlTokenChar '/' = false from by decide)
      have h2 := urlToken_ne hc (show urlTokenChar '?' = false from by decide)
      simp [h1, h2]) hH
  have hHnoAt : host.all (fun c => !(c = '@')) = true :=
    all_mono (fun c hc => by
      have := urlToken_ne hc (show urlTokenChar '@' = false from by decide)
      simp [this]) hH
  have hHcol : host.all (fun c => !(c = ':')) = true :=
    all_mono (fun c hc => by
      have := urlToken_ne hc (show urlTokenChar ':' = false from by decide)
      simp [this]) hH
  have hLnoHash : (scheme ++ ':' :: '/' :: '/' :: (host ++ '/' :: prest)).all
      (fun c => !(c = '#')) = true := by
    simp [List.all_append, hSnoHash, hHnoHash, hPnoHash]
  have e1 := takeWhile_all hLnoHash
  have e2 := dropWhile_all hLnoHash
  have e3 := takeWhile_append_allE (':' :: '/' :: '/' :: (host ++ '/' :: prest)) hSsch
  have e4 := dropWhile_append_allE (':' :: '/' :: '/' :: (host ++ '/' :: prest)) hSsch
  have eA : List.takeWhile (fun c => !(c = ':' ∨ c = '/' ∨ c = '?'))
      (':' :: '/' :: '/' :: (host ++ '/' :: prest)) = [] := by simp
  have eB : List.dropWhile (fun c => !(c = ':' ∨ c = '/' ∨ c = '?'))
      (':' :: '/' :: '/' :: (host ++ '/' :: prest)) =
      ':' :: '/' :: '/' :: (host ++ '/' :: prest) := by simp
  have e5 := takeWhile_append_allE ('/' :: prest) hHauth
  have e6 := dropWhile_append_allE ('/' :: prest) hHauth
  have eC : List.takeWhile (fun c => !(c = '/' ∨ c = '?')) ('/' :: prest) = [] := by simp
  have eD : List.dropWhile (fun c => !(c = '/' ∨ c = '?')) ('/' :: prest) =
      '/' :: prest := by simp
  have e7 := contains_eq_false_of_all hHnoAt
  have e8 := takeWhile_all hHcol
  have e11 := percentDecode_no_percent hPnoPct
  have eE : List.takeWhile (fun c => !(c = '?')) ('/' :: prest) = '/' :: prest := by
    simp only [List.takeWhile_cons]
    simp [takeWhile_all hPnoQ]
  have eF : List.dropWhile (fun c => !(c = '?')) ('/' :: prest) = [] := by
    simp only [List.dropWhile_cons]
    simp [dropWhile_all hPnoQ]
  simp only [parseUrlChars, e1, e2, e3, e4, eA, eB, e5, e6, eC, eD, e7, e8, e11,
    splitPathQuery, eE, eF, List.append_nil, List.drop_succ_cons, List.drop_zero,
    List.take_succ_cons, List.take_zero, List.drop_nil, eq_self_iff_true, if_true,
    Bool.false_eq_true, if_false, parseQueryString]
  simp

theorem parseUrl_split_q (scheme host prest qs : Chars)
    (hS : scheme.all urlTokenChar = true)
    (hH : host.all urlTokenChar = true)
    (hP : prest.all (fun c => !(c = '?' ∨ c = '#' ∨ c = '%')) = true)
    (hQ : qs.all (fun c => !(c = '#')) = true) :
    parseUrlChars (scheme ++ ':' :: '/' :: '/' :: (host ++ '/' :: (prest ++ '?' :: qs))) =
      { scheme := scheme, host := host.map Char.toLower, path := '/' :: prest,
        query := parseQueryString qs, fragment := [] } := by
  have hSnoHash : scheme.all (fun c => !(c = '#')) = true :=
    all_mono (fun c hc => by
      have := urlToken_ne hc (show urlTokenChar '#' = false from by decide)
      simp [this]) hS
  have hHnoHash : host.all (fun c => !(c = '#')) = true :=
    all_mono (fun c hc => by
      have := urlToken_ne hc (show urlTokenChar '#' = false from by decide)
      simp [this]) hH
  have hPnoHash : prest.all (fun c => !(c = '#')) = true :=
    all_mono (fun c hc => by
      simp only [Bool.not_eq_true', decide_eq_false_iff_not, not_or] at hc ⊢
      exact hc.2.1) hP
  have hPnoQ : prest.all (fun c => !(c = '?')) = true :=
    all_mono (fun c hc => by
      simp only [Bool.not_eq_true', decide_eq_false_iff_not, not_or] at hc ⊢
      exact hc.1) hP
  have hPnoPct : ('/' :: prest).all (fun c => !(c = '%')) = true := by
    simp only [List.all_cons, Bool.and_eq_true]
    refine ⟨by decide, ?_⟩
    exact all_mono (fun c hc => by
      simp only [Bool.not_eq_true', decide_eq_false_iff_not, not_or] at hc ⊢
      exact hc.2.2) hP
  have hSsch : scheme.all (fun c => !(c = ':' ∨ c = '/' ∨ c = '?')) = true :=
    all_mono (fun c hc => by
      have h1 := urlToken_ne hc (show urlTokenChar ':' = false from by decide)
      have h2 := urlToken_ne hc (show urlTokenChar '/' = false from by decide)
      have h3 := urlToken_ne hc (show urlTokenChar '?' = false from by decide)
      simp [h1, h2, h3]) hS
  have hHauth : host.all (fun c => !(c = '/' ∨ c = '?')) = true :=
    all_mono (fun c hc => by
      have h1 := urlToken_ne hc (show urlTokenChar '/' = false from by decide)
      have h2 := urlToken_ne hc (show urlTokenChar '?' = false from by decide)
      simp [h1, h2]) hH
  have hHnoAt : host.all (fun c => !(c = '@')) = true :=
    all_mono (fun c hc => by
      have := urlToken_ne hc (show urlTokenChar '@' = false from by decide)
      simp [this]) hH
  have hHcol : host.all (fun c => !(c = ':')) = true :=
    all_mono (fun c hc => by
      have := urlToken_ne hc (show urlTokenChar ':' = false from by decide)
      simp [this]) hH
  have hLnoHash : (scheme ++ ':' :: '/' :: '/' :: (host ++ '/' :: (prest ++ '?' :: qs))).all
      (fun c => !(c = '#')) = true := by
    simp [List.all_append, hSnoHash, hHnoHash, hPnoHash, hQ]
  have e1 := takeWhile_all hLnoHash
  have e2 := dropWhile_all hLnoHash
  have e3 := takeWhile_append_allE
    (':' :: '/' :: '/' :: (host ++ '/' :: (prest ++ '?' :: qs))) hSsch
  have e4 := dropWhile_append_allE
    (':' :: '/' :: '/' :: (host ++ '/' :: (prest ++ '?' :: qs))) hSsch
  have eA : List.takeWhile (fun c => !(c = ':' ∨ c = '/' ∨ c = '?'))
      (':' :: '/' :: '/' :: (host ++ '/' :: (prest ++ '?' :: qs))) = [] := by simp
  have eB : List.dropWhile (fun c => !(c = ':' ∨ c = '/' ∨ c = '?'))
      (':' :: '/' :: '/' :: (host ++ '/' :: (prest ++ '?' :: qs))) =
      ':' :: '/' :: '/' :: (host ++ '/' :: (prest ++ '?' :: qs)) := by simp
  have e5 := takeWhile_append_allE ('/' :: (prest ++ '?' :: qs)) hHauth
  have e6 := dropWhile_append_allE ('/' :: (prest ++ '?' :: qs)) hHauth
  have eC : List.takeWhile (fun c => !(c = '/' ∨ c = '?')) ('/' :: (prest ++ '?' :: qs)) = [] := by
    simp
  have eD : List.dropWhile (fun c => !(c = '/' ∨ c = '?')) ('/' :: (prest ++ '?' :: qs)) =
      '/' :: (prest ++ '?' :: qs) := by simp
  have e7 := contains_eq_false_of_all hHnoAt
  have e8 := takeWhile_all hHcol
  have e11 := percentDecode_no_percent hPnoPct
  have eE : List.takeWhile (fun c => !(c = '?')) ('/' :: (prest ++ '?' :: qs)) =
      '/' :: prest := by
    simp only [List.takeWhile_cons]
    rw [takeWhile_append_all hPnoQ]
    simp
  have eF : List.dropWhile (fun c => !(c = '?')) ('/' :: (prest ++ '?' :: qs)) =
      '?' :: qs := by
    simp only [List.dropWhile_cons]
    rw [dropWhile_append_all hPnoQ]
    simp
  simp only [parseUrlChars, e1, e2, e3, e4, eA, eB, e5, e6, eC, eD, e7, e8, e11,
    splitPathQuery, eE, eF, List.append_nil, List.drop_succ_cons, List.drop_zero,
    List.take_succ_cons, List.take_zero, List.drop_nil, eq_self_iff_true, if_true,
    Bool.false_eq_true, if_false]
  simp

theorem idSafe_token {xs : Chars} (h : xs.all idSafeChar = true) :
    xs.all urlTokenChar = true :=
  all_mono (fun c hc => by
    simp only [idSafeChar, Bool.or_eq_true] at hc
    simp only [urlTokenChar, Bool.or_eq_true]
    tauto) h

theorem idSafe_ne {c bad : Char} (h : idSafeChar c = true)
    (hbad : idSafeChar bad = false) : c ≠ bad := by
  intro he
  rw [he, hbad] at h
  exact Bool.noConfusion h

theorem idSafe_not_bad {xs : Chars} (h : xs.all idSafeChar = true) {bad : Char}
    (hbad : idSafeChar bad = false) : xs.all (fun c => !(c = bad)) = true :=
  all_mono (fun c hc => by
    have := idSafe_ne hc hbad
    simp [this]) h

theorem parseQueryString_single (k v : Chars)
    (hk : k.all (fun c => !(c = '&' ∨ c = '=' ∨ c = '%')) = true)
    (hv : v.all (fun c => !(c = '&')) = true) :
    parseQueryString (k ++ '=' :: v) = [(k, percentDecode v)] := by
  have hkAmp : k.all (fun c => !(c = '&')) = true :=
    all_mono (fun c hc => by
      simp only [Bool.not_eq_true', decide_eq_false_iff_not, not_or] at hc ⊢
      exact hc.1) hk
  have hkEq : k.all (fun c => !(c = '=')) = true :=
    all_mono (fun c hc => by
      simp only [Bool.not_eq_true', decide_eq_false_iff_not, not_or] at hc ⊢
      exact hc.2.1) hk
  have hkPct : k.all (fun c => !(c = '%')) = true :=
    all_mono (fun c hc => by
      simp only [Bool.not_eq_true', decide_eq_false_iff_not, not_or] at hc ⊢
      exact hc.2.2) hk
  have hne : k ++ '=' :: v ≠ [] := by simp
  have hall : (k ++ '=' :: v).all (fun c => !(c = '&')) = true := by
    simp [List.all_append, hkAmp, hv]
  have hsplit := splitOnChar_no_sep hall
  have htw : List.takeWhile (fun c => !(c = '=')) (k ++ '=' :: v) = k := by
    rw [takeWhile_append_all hkEq]
    simp
  have hdw : List.dropWhile (fun c => !(c = '=')) (k ++ '=' :: v) = '=' :: v := by
    rw [dropWhile_append_all hkEq]
    simp
  simp only [parseQueryString, hne, if_neg, hsplit, List.map_cons, List.map_nil,
    htw, hdw, List.drop_succ_cons, List.drop_zero, percentDecode_no_percent hkPct]
  simp

theorem shape_watch_query (id : String) (h : isSafeId id = true) :
    normalise_video_link ("https://youtube.com/watch?v=" ++ id) =
      some (youtubeCanonical id) := by
  obtain ⟨hne, hsafe⟩ : ¬(id = "") ∧ id.toList.all idSafeChar = true := by
    simpa [isSafeId] using h
  have hidTok := idSafe_token hsafe
  have hrw : ("https://youtube.com/watch?v=" ++ id).toList =
      "https".toList ++ ':' :: '/' :: '/' ::
        ("youtube.com".toList ++ '/' ::
          ("watch".toList ++ '?' :: ("v".toList ++ '=' :: id.toList))) := by
    show ("https://youtube.com/watch?v=" ++ id).data = _
    rw [String.data_append]
    rfl
  have hqs : ("v".toList ++ '=' :: id.toList).all (fun c => !(c = '#')) = true := by
    simp only [List.all_append, List.all_cons, Bool.and_eq_true]
    exact ⟨by decide, by decide, idSafe_not_bad hsafe (by decide)⟩
  have hparse := parseUrl_split_q "https".toList "youtube.com".toList "watch".toList
    ("v".toList ++ '=' :: id.toList) (by decide) (by decide) (by decide) hqs
  have hq : parseQueryString ("v".toList ++ '=' :: id.toList) =
      [("v".toList, id.toList)] := by
    rw [parseQueryString_single _ _ (by decide)
      (idSafe_not_bad hsafe (show idSafeChar '&' = false from by decide))]
    rw [percentDecode_no_percent (idSafe_not_bad hsafe (show idSafeChar '%' = false from by decide))]
  have hlk : lookupQ [("v".toList, id.toList)] "v".toList = some id.toList := by
    simp [lookupQ]
  have hstep : normYoutubeUrl NORM_FUEL
      { scheme := "https".toList, host := List.map Char.toLower "youtube.com".toList,
        path := '/' :: "watch".toList, query := [("v".toList, id.toList)],
        fragment := [] } = some (canonicalChars id.toList) := rfl
  have hcanon : String.mk (canonicalChars id.toList) = youtubeCanonical id := by
    apply String.ext
    show canonicalChars id.toList = ("https://youtube.com/watch?v=" ++ id).data
    rw [String.data_append]
    unfold canonicalChars
    rw [queryQuote_safe (all_mono (fun c hc => by
      simp only [idSafeChar, Bool.or_eq_true] at hc
      simp only [querySafeChar, Bool.or_eq_true]
      tauto) hsafe)]
    rfl
  have hyt : normalise_youtube_link ("https://youtube.com/watch?v=" ++ id) =
      some (youtubeCanonical id) := by
    unfold normalise_youtube_link
    rw [hrw, hparse, hq, hstep]
    simp only [Option.map_some']
    exact congrArg some hcanon
  simp [normalise_video_link, hyt]

theorem parseQueryString_pair (k v rest : Chars)
    (hk : k.all (fun c => !(c = '&' ∨ c = '=' ∨ c = '%')) = true)
    (hv : v.all (fun c => !(c = '&')) = true)
    (hrest : rest ≠ []) :
    parseQueryString (k ++ '=' :: (v ++ '&' :: rest)) =
      (k, percentDecode v) :: parseQueryString rest := by
  have hkAmp : k.all (fun c => !(c = '&')) = true :=
    all_mono (fun c hc => by
      simp only [Bool.not_eq_true', decide_eq_false_iff_not, not_or] at hc ⊢
      exact hc.1) hk
  have hkEq : k.all (fun c => !(c = '=')) = true :=
    all_mono (fun c hc => by
      simp only [Bool.not_eq_true', decide_eq_false_iff_not, not_or] at hc ⊢
      exact hc.2.1) hk
  have hkPct : k.all (fun c => !(c = '%')) = true :=
    all_mono (fun c hc => by
      simp only [Bool.not_eq_true', decide_eq_false_iff_not, not_or] at hc ⊢
      exact hc.2.2) hk
  have hgrp : (k ++ '=' :: v).all (fun c => !(c = '&')) = true := by
    simp [List.all_append, hkAmp, hv]
  have hsplit : splitOnChar '&' (k ++ '=' :: (v ++ '&' :: rest)) =
      (k ++ '=' :: v) :: splitOnChar '&' rest := by
    have h1 : k ++ '=' :: (v ++ '&' :: rest) = (k ++ '=' :: v) ++ '&' :: rest := by
      simp
    rw [h1, splitOnChar_append_no_sep hgrp]
    have h2 : splitOnChar '&' ('&' :: rest) = [] :: splitOnChar '&' rest := by
      cases hr : splitOnChar '&' rest with
      | nil => exact absurd hr (splitOnChar_ne_nil '&' rest)
      | cons g gs => simp [splitOnChar, hr]
    rw [h2]
    simp
  have htw : List.takeWhile (fun c => !(c = '=')) (k ++ '=' :: v) = k := by
    rw [takeWhile_append_all hkEq]
    simp
  have hdw : List.dropWhile (fun c => !(c = '=')) (k ++ '=' :: v) = '=' :: v := by
    rw [dropWhile_append_all hkEq]
    simp
  have hne : k ++ '=' :: (v ++ '&' :: rest) ≠ [] := by simp
  have hparts : parseQueryString rest =
      (splitOnChar '&' rest).map fun part =>
        (percentDecode (part.takeWhile (fun c => !(c = '='))),
         percentDecode ((part.dropWhile (fun c => !(c = '='))).drop 1)) := by
    simp [parseQueryString, hrest]
  simp only [parseQueryString, hne, if_neg, hsplit, List.map_cons, htw, hdw,
    List.drop_succ_cons, List.drop_zero, percentDecode_no_percent hkPct]
  rw [← hparts]
  simp [hrest]

theorem updateQuery_nil (q : List (Chars × Chars)) : updateQuery q [] = q := by
  simp [updateQuery, lookupQ]

/-- `path.strip("/")` when the stripped remainder neither starts nor ends
with a slash. -/
theorem stripChar_slash_eq (ys : Chars)
    (h1 : ∀ d, ys.head? = some d → ¬d = '/')
    (h2 : ∀ d, ys.getLast? = some d → ¬d = '/') :
    stripChar '/' ('/' :: ys) = ys := by
  unfold stripChar
  have hd : List.dropWhile (fun d => d = '/') ('/' :: ys) = ys := by
    cases ys with
    | nil => simp
    | cons a t =>
      have := h1 a rfl
      simp [List.dropWhile_cons, this]
  rw [hd]
  cases hy : ys.reverse with
  | nil =>
    have : ys = [] := by simpa using congrArg List.reverse hy
    subst this
    simp
  | cons b u =>
    have hb : ys.getLast? = some b := by
      rw [← List.head?_reverse, hy]
      rfl
    have hbne := h2 b hb
    have hstop : List.dropWhile (fun d => decide (d = '/')) (b :: u) = b :: u := by
      simp [List.dropWhile_cons, hbne]
    rw [hstop, ← hy, List.reverse_reverse]

theorem lastSegment_append (mid idc : Chars)
    (hid : idc.all (fun c => !(c = '/')) = true) :
    lastSegment (mid ++ '/' :: idc) = idc := by
  unfold lastSegment
  rw [List.reverse_append]
  have h1 : ('/' :: idc).reverse = idc.reverse ++ ['/'] := by simp
  rw [h1, List.append_assoc]
  rw [takeWhile_append_all (by simpa using hid)]
  simp

theorem normYT_watch_resolved (fuel : Nat) (q : List (Chars × Chars)) (idc : Chars)
    (hlk : lookupQ q "v".toList = some idc) :
    normYoutubeUrl (fuel + 1)
      { scheme := "https".toList, host := "youtube.com".toList,
        path := "/watch".toList, query := q, fragment := [] } =
      some (canonicalChars idc) := by
  simp only [normYoutubeUrl]
  rw [hlk]
  rfl

theorem getLast_append_safe (mid idc : Chars) (hne : idc ≠ [])
    (hid : idc.all (fun c => !(c = '/')) = true) :
    ∀ d, (mid ++ '/' :: idc).getLast? = some d → ¬d = '/' := by
  intro d hd
  rw [← List.head?_reverse, List.reverse_append,
    show ('/' :: idc).reverse = idc.reverse ++ ['/'] by simp,
    List.append_assoc] at hd
  cases hrev : idc.reverse with
  | nil => exact absurd (by simpa using congrArg List.reverse hrev) hne
  | cons b u =>
    rw [hrev] at hd
    simp only [List.cons_append, List.head?_cons, Option.some.injEq] at hd
    subst hd
    have hbmem : b ∈ idc := List.mem_reverse.mp (hrev ▸ List.mem_cons_self b u)
    simp only [List.all_eq_true, Bool.not_eq_true', decide_eq_false_iff_not] at hid
    exact hid b hbmem

theorem headSafe_of_append_cons (a : Char) (rest : Chars) (ha : ¬a = '/') :
    ∀ d, (a :: rest).head? = some d → ¬d = '/' := by
  intro d hd
  simp only [List.head?_cons, Option.some.injEq] at hd
  subst hd
  exact ha

theorem shape_embed_path (id : String) (h : isSafeId id = true) :
    normalise_video_link ("https://www.youtube.com/embed/" ++ id) =
      some (youtubeCanonical id) := by
  obtain ⟨hne, hsafe⟩ : ¬(id = "") ∧ id.toList.all idSafeChar = true := by
    simpa [isSafeId] using h
  have hneL : id.toList ≠ [] := by
    intro hx
    exact hne (by
      have := congrArg String.mk hx
      simpa using this)
  have hidSlash : id.toList.all (fun c => !(c = '/')) = true :=
    idSafe_not_bad hsafe (by decide)
  have hid3 : id.toList.all (fun c => !(c = '?' ∨ c = '#' ∨ c = '%')) = true :=
    all_mono (fun c hc => by
      have n1 := idSafe_ne hc (show idSafeChar '?' = false from by decide)
      have n2 := idSafe_ne hc (show idSafeChar '#' = false from by decide)
      have n3 := idSafe_ne hc (show idSafeChar '%' = false from by decide)
      simp [n1, n2, n3]) hsafe
  have hrw : ("https://www.youtube.com/embed/" ++ id).toList =
      "https".toList ++ ':' :: '/' :: '/' ::
        ("www.youtube.com".toList ++ '/' :: ("embed".toList ++ '/' :: id.toList)) := by
    show ("https://www.youtube.com/embed/" ++ id).data = _
    rw [String.data_append]
    rfl
  have hPsafe : ("embed".toList ++ '/' :: id.toList).all
      (fun c => !(c = '?' ∨ c = '#' ∨ c = '%')) = true := by
    simp only [List.all_append, List.all_cons, Bool.and_eq_true]
    exact ⟨by decide, by decide, hid3⟩
  have hparse := parseUrl_split_noq "https".toList "www.youtube.com".toList
    ("embed".toList ++ '/' :: id.toList) (by decide) (by decide) hPsafe
  have hstrip : stripChar '/' ('/' :: ("embed".toList ++ '/' :: id.toList)) =
      "embed".toList ++ '/' :: id.toList :=
    stripChar_slash_eq _
      (headSafe_of_append_cons 'e' _ (by decide))
      (getLast_append_safe "embed".toList id.toList hneL hidSlash)
  have hlast : lastSegment ("embed".toList ++ '/' :: id.toList) = id.toList :=
    lastSegment_append _ _ hidSlash
  have hstep : ∀ fuel : Nat, normYoutubeUrl (fuel + 1)
      { scheme := "https".toList, host := List.map Char.toLower "www.youtube.com".toList,
        path := '/' :: ("embed".toList ++ '/' :: id.toList), query := [],
        fragment := [] } = some (canonicalChars id.toList) := by
    intro fuel
    simp only [normYoutubeUrl]
    rw [hstrip, hlast]
    simp [YOUTUBE_DOMAINS, endsWithChars]
  have hcanon : String.mk (canonicalChars id.toList) = youtubeCanonical id := by
    apply String.ext
    show canonicalChars id.toList = ("https://youtube.com/watch?v=" ++ id).data
    rw [String.data_append]
    unfold canonicalChars
    rw [queryQuote_safe (all_mono (fun c hc => by
      simp only [idSafeChar, Bool.or_eq_true] at hc
      simp only [querySafeChar, Bool.or_eq_true]
      tauto) hsafe)]
    rfl
  have hyt : normalise_youtube_link ("https://www.youtube.com/embed/" ++ id) =
      some (youtubeCanonical id) := by
    unfold normalise_youtube_link
    rw [hrw, hparse, show NORM_FUEL = 15 + 1 from rfl, hstep 15]
    simp only [Option.map_some']
    exact congrArg some hcanon
  simp [normalise_video_link, hyt]

theorem headSafe_of_token (xs rest : Chars) (hne : xs ≠ [])
    (hx : xs.all urlTokenChar = true) :
    ∀ d, (xs ++ rest).head? = some d → ¬d = '/' := by
  cases xs with
  | nil => exact absurd rfl hne
  | cons a t =>
    intro d hd
    simp only [List.cons_append, List.head?_cons, Option.some.injEq] at hd
    subst hd
    simp only [List.all_cons, Bool.and_eq_true] at hx
    exact urlToken_ne hx.1 (by decide)

/-- Unpack the id-safety predicate into  fact the shape proofs need. -/
theorem safeId_unpack (id : String) (h : isSafeId id = true) :
    id.toList ≠ [] ∧ id.toList.all idSafeChar = true ∧
    id.toList.all (fun c => !(c = '/')) = true ∧
    id.toList.all (fun c => !(c = '?' ∨ c = '#' ∨ c = '%')) = true ∧
    id.toList.all (fun c => !(c = '&')) = true ∧
    id.toList.all (fun c => !(c = '%')) = true ∧
    id.toList.all (fun c => !(c = '#')) = true := by
  obtain ⟨hne, hsafe⟩ : ¬(id = "") ∧ id.toList.all idSafeChar = true := by
    simpa [isSafeId] using h
  have hneL : id.toList ≠ [] := by
    intro hx
    exact hne (by
      have := congrArg String.mk hx
      simpa using this)
  refine ⟨hneL, hsafe, idSafe_not_bad hsafe (by decide), ?_,
    idSafe_not_bad hsafe (by decide), idSafe_not_bad hsafe (by decide),
    idSafe_not_bad hsafe (by decide)⟩
  exact all_mono (fun c hc => by
    have n1 := idSafe_ne hc (show idSafeChar '?' = false from by decide)
    have n2 := idSafe_ne hc (show idSafeChar '#' = false from by decide)
    have n3 := idSafe_ne hc (show idSafeChar '%' = false from by decide)
    simp [n1, n2, n3]) hsafe

theorem canonical_mk (id : String) (hsafe : id.toList.all idSafeChar = true) :
    String.mk (canonicalChars id.toList) = youtubeCanonical id := by
  apply String.ext
  show canonicalChars id.toList = ("https://youtube.com/watch?v=" ++ id).data
  rw [String.data_append]
  unfold canonicalChars
  rw [queryQuote_safe (all_mono (fun c hc => by
    simp only [idSafeChar, Bool.or_eq_true] at hc
    simp only [querySafeChar, Bool.or_eq_true]
    tauto) hsafe)]
  rfl

/-- `normalise_youtube_link` on an already-parsed `watch` URL carrying a `v`
query parameter. -/
theorem normYT_url_watchquery (fuel : Nat) (sch host : Chars)
    (q : List (Chars × Chars)) (idc : Chars)
    (hsch : sch = "http".toList ∨ sch = "https".toList)
    (hdom : (YOUTUBE_DOMAINS.any fun d => endsWithChars host d) = true)
    (hlk : lookupQ q "v".toList = some idc) :
    normYoutubeUrl (fuel + 1)
      { scheme := sch, host := host, path := '/' :: "watch".toList,
        query := q, fragment := [] } = some (canonicalChars idc) := by
  simp only [normYoutubeUrl]
  rw [hlk]
  rcases hsch with h | h <;> subst h <;> simp [hdom, stripChar, lastSegment]

/-- `normalise_youtube_link` on an already-parsed path-form URL
(`watch/embed/v/e/live/shorts` followed by the id as last segment). -/
theorem normYT_url_pathform (fuel : Nat) (host seg idc : Chars)
    (q : List (Chars × Chars))
    (hdom : (YOUTUBE_DOMAINS.any fun d => endsWithChars host d) = true)
    (hseg : seg ∈ ["watch", "embed", "v", "e", "live", "shorts"].map String.toList)
    (hidne : idc ≠ []) (hidSlash : idc.all (fun c => !(c = '/')) = true) :
    normYoutubeUrl (fuel + 1)
      { scheme := "https".toList, host := host,
        path := '/' :: (seg ++ '/' :: idc), query := q, fragment := [] } =
      some (canonicalChars idc) := by
  have hstrip : stripChar '/' ('/' :: (seg ++ '/' :: idc)) = seg ++ '/' :: idc := by
    refine stripChar_slash_eq _ ?_ (getLast_append_safe seg idc hidne hidSlash)
    fin_cases hseg <;>
      exact headSafe_of_token _ _ (by decide) (by decide)
  have hlast : lastSegment (seg ++ '/' :: idc) = idc :=
    lastSegment_append _ _ hidSlash
  simp only [normYoutubeUrl]
  rw [hstrip, hlast]
  fin_cases hseg <;> simp [hdom, hstrip, hlast]

theorem shape_watch_query_extra (id : String) (h : isSafeId id = true) :
    normalise_video_link ("https://www.youtube.com/watch?v=" ++ id ++ "&feature=em-uploademail") =
      some (youtubeCanonical id) := by
  obtain ⟨hneL, hsafe, hidSlash, hid3, hidAmp, hidPct, hidHash⟩ := safeId_unpack id h
  have hrw : ("https://www.youtube.com/watch?v=" ++ id ++ "&feature=em-uploademail").toList =
      "https".toList ++ ':' :: '/' :: '/' ::
        ("www.youtube.com".toList ++ '/' ::
          ("watch".toList ++ '?' ::
            ("v".toList ++ '=' :: (id.toList ++ '&' :: "feature=em-uploademail".toList)))) := by
    show ("https://www.youtube.com/watch?v=" ++ id ++ "&feature=em-uploademail").data = _
    rw [String.data_append, String.data_append]
    rfl
  have hqs : ("v".toList ++ '=' :: (id.toList ++ '&' :: "feature=em-uploademail".toList)).all
      (fun c => !(c = '#')) = true := by
    simp only [List.all_append, List.all_cons, Bool.and_eq_true]
    exact ⟨by decide, by decide, hidHash, by decide, by decide⟩
  have hparse := parseUrl_split_q "https".toList "www.youtube.com".toList "watch".toList
    ("v".toList ++ '=' :: (id.toList ++ '&' :: "feature=em-uploademail".toList))
    (by decide) (by decide) (by decide) hqs
  have hq : parseQueryString ("v".toList ++ '=' :: (id.toList ++ '&' :: "feature=em-uploademail".toList)) =
      ("v".toList, id.toList) :: parseQueryString "feature=em-uploademail".toList := by
    rw [parseQueryString_pair _ _ _ (by decide) hidAmp (by decide),
      percentDecode_no_percent hidPct]
  have hrest : parseQueryString "feature=em-uploademail".toList =
      [("feature".toList, "em-uploademail".toList)] := by decide
  have hyt : normalise_youtube_link ("https://www.youtube.com/watch?v=" ++ id ++ "&feature=em-uploademail") =
      some (youtubeCanonical id) := by
    unfold normalise_youtube_link
    have hlk : lookupQ [("v".toList, id.toList),
        ("feature".toList, "em-uploademail".toList)] "v".toList = some id.toList := by
      simp [lookupQ]
    rw [hrw, hparse, hq, hrest, show NORM_FUEL = 15 + 1 from rfl,
      normYT_url_watchquery 15 _ _ _ _ (Or.inr rfl) (by decide) hlk]
    simp only [Option.map_some']
    exact congrArg some (canonical_mk id hsafe)
  simp [normalise_video_link, hyt]

theorem shape_watch_query_second (id : String) (h : isSafeId id = true) :
    normalise_video_link ("https://youtube.com/watch?feature=player_embedded&v=" ++ id) =
      some (youtubeCanonical id) := by
  obtain ⟨hneL, hsafe, hidSlash, hid3, hidAmp, hidPct, hidHash⟩ := safeId_unpack id h
  have hrw : ("https://youtube.com/watch?feature=player_embedded&v=" ++ id).toList =
      "https".toList ++ ':' :: '/' :: '/' ::
        ("youtube.com".toList ++ '/' ::
          ("watch".toList ++ '?' ::
            ("feature".toList ++ '=' :: ("player_embedded".toList ++ '&' ::
              ("v".toList ++ '=' :: id.toList))))) := by
    show ("https://youtube.com/watch?feature=player_embedded&v=" ++ id).data = _
    rw [String.data_append]
    rfl
  have hqs : ("feature".toList ++ '=' :: ("player_embedded".toList ++ '&' ::
      ("v".toList ++ '=' :: id.toList))).all (fun c => !(c = '#')) = true := by
    simp only [List.all_append, List.all_cons, Bool.and_eq_true]
    exact ⟨by decide, by decide, by decide, by decide, by decide, by decide, hidHash⟩
  have hparse := parseUrl_split_q "https".toList "youtube.com".toList "watch".toList
    ("feature".toList ++ '=' :: ("player_embedded".toList ++ '&' ::
      ("v".toList ++ '=' :: id.toList)))
    (by decide) (by decide) (by decide) hqs
  have hq : parseQueryString ("feature".toList ++ '=' :: ("player_embedded".toList ++ '&' ::
      ("v".toList ++ '=' :: id.toList))) =
      ("feature".toList, "player_embedded".toList) ::
        parseQueryString ("v".toList ++ '=' :: id.toList) := by
    rw [parseQueryString_pair _ _ _ (by decide) (by decide) (by simp)]
    rfl
  have hq2 : parseQueryString ("v".toList ++ '=' :: id.toList) =
      [("v".toList, id.toList)] := by
    rw [parseQueryString_single _ _ (by decide) hidAmp,
      percentDecode_no_percent hidPct]
  have hlk : lookupQ [("feature".toList, "player_embedded".toList),
      ("v".toList, id.toList)] "v".toList = some id.toList := by
    simp [lookupQ, List.find?]
  have hyt : normalise_youtube_link ("https://youtube.com/watch?feature=player_embedded&v=" ++ id) =
      some (youtubeCanonical id) := by
    unfold normalise_youtube_link
    rw [hrw, hparse, hq, hq2, show NORM_FUEL = 15 + 1 from rfl,
      normYT_url_watchquery 15 _ _ _ _ (Or.inr rfl) (by decide) hlk]
    simp only [Option.map_some']
    exact congrArg some (canonical_mk id hsafe)
  simp [normalise_video_link, hyt]

theorem shape_watch_path (id : String) (h : isSafeId id = true) :
    normalise_video_link ("https://www.youtube.com/watch/" ++ id) =
      some (youtubeCanonical id) := by
  obtain ⟨hneL, hsafe, hidSlash, hid3, _, _, _⟩ := safeId_unpack id h
  have hrw : ("https://www.youtube.com/watch/" ++ id).toList =
      "https".toList ++ ':' :: '/' :: '/' ::
        ("www.youtube.com".toList ++ '/' :: ("watch".toList ++ '/' :: id.toList)) := by
    show ("https://www.youtube.com/watch/" ++ id).data = _
    rw [String.data_append]
    rfl
  have hPsafe : ("watch".toList ++ '/' :: id.toList).all
      (fun c => !(c = '?' ∨ c = '#' ∨ c = '%')) = true := by
    simp only [List.all_append, List.all_cons, Bool.and_eq_true]
    exact ⟨by decide, by decide, hid3⟩
  have hparse := parseUrl_split_noq "https".toList "www.youtube.com".toList
    ("watch".toList ++ '/' :: id.toList) (by decide) (by decide) hPsafe
  have hyt : normalise_youtube_link ("https://www.youtube.com/watch/" ++ id) =
      some (youtubeCanonical id) := by
    unfold normalise_youtube_link
    rw [hrw, hparse, show NORM_FUEL = 15 + 1 from rfl,
      normYT_url_pathform 15 _ "watch".toList id.toList _ (by decide) (by decide) hneL hidSlash]
    simp only [Option.map_some']
    exact congrArg some (canonical_mk id hsafe)
  simp [normalise_video_link, hyt]

theorem shape_embed_path_query (id : String) (h : isSafeId id = true) :
    normalise_video_link ("https://www.youtube.com/embed/" ++ id ++ "?rel=0") =
      some (youtubeCanonical id) := by
  obtain ⟨hneL, hsafe, hidSlash, hid3, _, _, _⟩ := safeId_unpack id h
  have hrw : ("https://www.youtube.com/embed/" ++ id ++ "?rel=0").toList =
      "https".toList ++ ':' :: '/' :: '/' ::
        ("www.youtube.com".toList ++ '/' ::
          (("embed".toList ++ '/' :: id.toList) ++ '?' :: "rel=0".toList)) := by
    show ("https://www.youtube.com/embed/" ++ id ++ "?rel=0").data = _
    rw [String.data_append, String.data_append]
    rfl
  have hPsafe : ("embed".toList ++ '/' :: id.toList).all
      (fun c => !(c = '?' ∨ c = '#' ∨ c = '%')) = true := by
    simp only [List.all_append, List.all_cons, Bool.and_eq_true]
    exact ⟨by decide, by decide, hid3⟩
  have hparse := parseUrl_split_q "https".toList "www.youtube.com".toList
    ("embed".toList ++ '/' :: id.toList) "rel=0".toList
    (by decide) (by decide) hPsafe (by decide)
  have hyt : normalise_youtube_link ("https://www.youtube.com/embed/" ++ id ++ "?rel=0") =
      some (youtubeCanonical id) := by
    unfold normalise_youtube_link
    rw [hrw, hparse, show NORM_FUEL = 15 + 1 from rfl,
      normYT_url_pathform 15 _ "embed".toList id.toList _ (by decide) (by decide) hneL hidSlash]
    simp only [Option.map_some']
    exact congrArg some (canonical_mk id hsafe)
  simp [normalise_video_link, hyt]

theorem shape_v_path (id : String) (h : isSafeId id = true) :
    normalise_video_link ("https://youtube.com/v/" ++ id) =
      some (youtubeCanonical id) := by
  obtain ⟨hneL, hsafe, hidSlash, hid3, _, _, _⟩ := safeId_unpack id h
  have hrw : ("https://youtube.com/v/" ++ id).toList =
      "https".toList ++ ':' :: '/' :: '/' ::
        ("youtube.com".toList ++ '/' :: ("v".toList ++ '/' :: id.toList)) := by
    show ("https://youtube.com/v/" ++ id).data = _
    rw [String.data_append]
    rfl
  have hPsafe : ("v".toList ++ '/' :: id.toList).all
      (fun c => !(c = '?' ∨ c = '#' ∨ c = '%')) = true := by
    simp only [List.all_append, List.all_cons, Bool.and_eq_true]
    exact ⟨by decide, by decide, hid3⟩
  have hparse := parseUrl_split_noq "https".toList "youtube.com".toList
    ("v".toList ++ '/' :: id.toList) (by decide) (by decide) hPsafe
  have hyt : normalise_youtube_link ("https://youtube.com/v/" ++ id) =
      some (youtubeCanonical id) := by
    unfold normalise_youtube_link
    rw [hrw, hparse, show NORM_FUEL = 15 + 1 from rfl,
      normYT_url_pathform 15 _ "v".toList id.toList _ (by decide) (by decide) hneL hidSlash]
    simp only [Option.map_some']
    exact congrArg some (canonical_mk id hsafe)
  simp [normalise_video_link, hyt]

theorem shape_e_path (id : String) (h : isSafeId id = true) :
    normalise_video_link ("https://youtube.com/e/" ++ id) =
      some (youtubeCanonical id) := by
  obtain ⟨hneL, hsafe, hidSlash, hid3, _, _, _⟩ := safeId_unpack id h
  have hrw : ("https://youtube.com/e/" ++ id).toList =
      "https".toList ++ ':' :: '/' :: '/' ::
        ("youtube.com".toList ++ '/' :: ("e".toList ++ '/' :: id.toList)) := by
    show ("https://youtube.com/e/" ++ id).data = _
    rw [String.data_append]
    rfl
  have hPsafe : ("e".toList ++ '/' :: id.toList).all
      (fun c => !(c = '?' ∨ c = '#' ∨ c = '%')) = true := by
    simp only [List.all_append, List.all_cons, Bool.and_eq_true]
    exact ⟨by decide, by decide, hid3⟩
  have hparse := parseUrl_split_noq "https".toList "youtube.com".toList
    ("e".toList ++ '/' :: id.toList) (by decide) (by decide) hPsafe
  have hyt : normalise_youtube_link ("https://youtube.com/e/" ++ id) =
      some (youtubeCanonical id) := by
    unfold normalise_youtube_link
    rw [hrw, hparse, show NORM_FUEL = 15 + 1 from rfl,
      normYT_url_pathform 15 _ "e".toList id.toList _ (by decide) (by decide) hneL hidSlash]
    simp only [Option.map_some']
    exact congrArg some (canonical_mk id hsafe)
  simp [normalise_video_link, hyt]

theorem shape_live_path (id : String) (h : isSafeId id = true) :
    normalise_video_link ("https://www.youtube.com/live/" ++ id) =
      some (youtubeCanonical id) := by
  obtain ⟨hneL, hsafe, hidSlash, hid3, _, _, _⟩ := safeId_unpack id h
  have hrw : ("https://www.youtube.com/live/" ++ id).toList =
      "https".toList ++ ':' :: '/' :: '/' ::
        ("www.youtube.com".toList ++ '/' :: ("live".toList ++ '/' :: id.toList)) := by
    show ("https://www.youtube.com/live/" ++ id).data = _
    rw [String.data_append]
    rfl
  have hPsafe : ("live".toList ++ '/' :: id.toList).all
      (fun c => !(c = '?' ∨ c = '#' ∨ c = '%')) = true := by
    simp only [List.all_append, List.all_cons, Bool.and_eq_true]
    exact ⟨by decide, by decide, hid3⟩
  have hparse := parseUrl_split_noq "https".toList "www.youtube.com".toList
    ("live".toList ++ '/' :: id.toList) (by decide) (by decide) hPsafe
  have hyt : normalise_youtube_link ("https://www.youtube.com/live/" ++ id) =
      some (youtubeCanonical id) := by
    unfold normalise_youtube_link
    rw [hrw, hparse, show NORM_FUEL = 15 + 1 from rfl,
      normYT_url_pathform 15 _ "live".toList id.toList _ (by decide) (by decide) hneL hidSlash]
    simp only [Option.map_some']
    exact congrArg some (canonical_mk id hsafe)
  simp [normalise_video_link, hyt]

theorem shape_shorts_path_query (id : String) (h : isSafeId id = true) :
    normalise_video_link ("https://www.youtube.com/shorts/" ++ id ++ "?app=desktop") =
      some (youtubeCanonical id) := by
  obtain ⟨hneL, hsafe, hidSlash, hid3, _, _, _⟩ := safeId_unpack id h
  have hrw : ("https://www.youtube.com/shorts/" ++ id ++ "?app=desktop").toList =
      "https".toList ++ ':' :: '/' :: '/' ::
        ("www.youtube.com".toList ++ '/' ::
          (("shorts".toList ++ '/' :: id.toList) ++ '?' :: "app=desktop".toList)) := by
    show ("https://www.youtube.com/shorts/" ++ id ++ "?app=desktop").data = _
    rw [String.data_append, String.data_append]
    rfl
  have hPsafe : ("shorts".toList ++ '/' :: id.toList).all
      (fun c => !(c = '?' ∨ c = '#' ∨ c = '%')) = true := by
    simp only [List.all_append, List.all_cons, Bool.and_eq_true]
    exact ⟨by decide, by decide, hid3⟩
  have hparse := parseUrl_split_q "https".toList "www.youtube.com".toList
    ("shorts".toList ++ '/' :: id.toList) "app=desktop".toList
    (by decide) (by decide) hPsafe (by decide)
  have hyt : normalise_youtube_link ("https://www.youtube.com/shorts/" ++ id ++ "?app=desktop") =
      some (youtubeCanonical id) := by
    unfold normalise_youtube_link
    rw [hrw, hparse, show NORM_FUEL = 15 + 1 from rfl,
      normYT_url_pathform 15 _ "shorts".toList id.toList _ (by decide) (by decide) hneL hidSlash]
    simp only [Option.map_some']
    exact congrArg some (canonical_mk id hsafe)
  simp [normalise_video_link, hyt]

theorem shape_youtube_short (id : String) (h : isSafeId id = true) :
    normalise_video_link ("https://youtu.be/" ++ id) = some (youtubeCanonical id) := by
  obtain ⟨hneL, hsafe, hidSlash, hid3, hidAmp, hidPct, hidHash⟩ := safeId_unpack id h
  have hrw : ("https://youtu.be/" ++ id).toList =
      "https".toList ++ ':' :: '/' :: '/' :: ("youtu.be".toList ++ '/' :: id.toList) := by
    show ("https://youtu.be/" ++ id).data = _
    rw [String.data_append]
    rfl
  have hparse := parseUrl_split_noq "https".toList "youtu.be".toList id.toList
    (by decide) (by decide) hid3
  have houter : ∀ fuel : Nat, normYoutubeUrl (fuel + 1 + 1)
      { scheme := "https".toList, host := List.map Char.toLower "youtu.be".toList,
        path := '/' :: id.toList, query := [], fragment := [] } =
      normYoutubeUrl (fuel + 1)
        { scheme := "https".toList, host := "youtube.com".toList,
          path := '/' :: "watch".toList,
          query := updateQuery (parseQueryString ("v=".toList ++ id.toList)) [],
          fragment := [] } := fun _ => rfl
  have hpq : parseQueryString ("v=".toList ++ id.toList) = [("v".toList, id.toList)] := by
    show parseQueryString ("v".toList ++ '=' :: id.toList) = _
    rw [parseQueryString_single _ _ (by decide) hidAmp, percentDecode_no_percent hidPct]
  have hlk : lookupQ [("v".toList, id.toList)] "v".toList = some id.toList := by
    simp [lookupQ]
  have hyt : normalise_youtube_link ("https://youtu.be/" ++ id) =
      some (youtubeCanonical id) := by
    unfold normalise_youtube_link
    rw [hrw, hparse, show NORM_FUEL = 14 + 1 + 1 from rfl, houter 14, hpq,
      updateQuery_nil, normYT_url_watchquery 14 _ _ _ _ (Or.inr rfl) (by decide) hlk]
    simp only [Option.map_some']
    exact congrArg some (canonical_mk id hsafe)
  simp [normalise_video_link, hyt]

theorem shape_youtube_short_amp (id : String) (h : isSafeId id = true) :
    normalise_video_link ("http://youtu.be/" ++ id ++ "&feature=channel") =
      some (youtubeCanonical id) := by
  obtain ⟨hneL, hsafe, hidSlash, hid3, hidAmp, hidPct, hidHash⟩ := safeId_unpack id h
  have hrw : ("http://youtu.be/" ++ id ++ "&feature=channel").toList =
      "http".toList ++ ':' :: '/' :: '/' ::
        ("youtu.be".toList ++ '/' :: (id.toList ++ '&' :: "feature=channel".toList)) := by
    show ("http://youtu.be/" ++ id ++ "&feature=channel").data = _
    rw [String.data_append, String.data_append]
    rfl
  have hPsafe : (id.toList ++ '&' :: "feature=channel".toList).all
      (fun c => !(c = '?' ∨ c = '#' ∨ c = '%')) = true := by
    simp only [List.all_append, List.all_cons, Bool.and_eq_true]
    exact ⟨hid3, by decide, by decide⟩
  have hparse := parseUrl_split_noq "http".toList "youtu.be".toList
    (id.toList ++ '&' :: "feature=channel".toList) (by decide) (by decide) hPsafe
  have houter : ∀ fuel : Nat, normYoutubeUrl (fuel + 1 + 1)
      { scheme := "http".toList, host := List.map Char.toLower "youtu.be".toList,
        path := '/' :: (id.toList ++ '&' :: "feature=channel".toList), query := [],
        fragment := [] } =
      normYoutubeUrl (fuel + 1)
        { scheme := "https".toList, host := "youtube.com".toList,
          path := '/' :: "watch".toList,
          query := updateQuery
            (parseQueryString ("v=".toList ++ (id.toList ++ '&' :: "feature=channel".toList))) [],
          fragment := [] } := fun _ => rfl
  have hpq : parseQueryString ("v=".toList ++ (id.toList ++ '&' :: "feature=channel".toList)) =
      ("v".toList, id.toList) :: parseQueryString "feature=channel".toList := by
    show parseQueryString ("v".toList ++ '=' :: (id.toList ++ '&' :: "feature=channel".toList)) = _
    rw [parseQueryString_pair _ _ _ (by decide) hidAmp (by decide),
      percentDecode_no_percent hidPct]
  have hrest : parseQueryString "feature=channel".toList =
      [("feature".toList, "channel".toList)] := by decide
  have hlk : lookupQ [("v".toList, id.toList), ("feature".toList, "channel".toList)]
      "v".toList = some id.toList := by
    simp [lookupQ]
  have hyt : normalise_youtube_link ("http://youtu.be/" ++ id ++ "&feature=channel") =
      some (youtubeCanonical id) := by
    unfold normalise_youtube_link
    rw [hrw, hparse, show NORM_FUEL = 14 + 1 + 1 from rfl, houter 14, hpq, hrest,
      updateQuery_nil, normYT_url_watchquery 14 _ _ _ _ (Or.inr rfl) (by decide) hlk]
    simp only [Option.map_some']
    exact congrArg some (canonical_mk id hsafe)
  simp [normalise_video_link, hyt]

theorem shape_youtube_short_query (id : String) (h : isSafeId id = true) :
    normalise_video_link ("https://youtu.be/" ++ id ++ "?t=1") =
      some (youtubeCanonical id) := by
  obtain ⟨hneL, hsafe, hidSlash, hid3, hidAmp, hidPct, hidHash⟩ := safeId_unpack id h
  have hrw : ("https://youtu.be/" ++ id ++ "?t=1").toList =
      "https".toList ++ ':' :: '/' :: '/' ::
        ("youtu.be".toList ++ '/' :: (id.toList ++ '?' :: "t=1".toList)) := by
    show ("https://youtu.be/" ++ id ++ "?t=1").data = _
    rw [String.data_append, String.data_append]
    rfl
  have hparse := parseUrl_split_q "https".toList "youtu.be".toList id.toList
    "t=1".toList (by decide) (by decide) hid3 (by decide)
  have houter : ∀ fuel : Nat, normYoutubeUrl (fuel + 1 + 1)
      { scheme := "https".toList, host := List.map Char.toLower "youtu.be".toList,
        path := '/' :: id.toList, query := parseQueryString "t=1".toList,
        fragment := [] } =
      normYoutubeUrl (fuel + 1)
        { scheme := "https".toList, host := "youtube.com".toList,
          path := '/' :: "watch".toList,
          query := updateQuery (parseQueryString ("v=".toList ++ id.toList))
            (parseQueryString "t=1".toList),
          fragment := [] } := fun _ => rfl
  have hpq : parseQueryString ("v=".toList ++ id.toList) = [("v".toList, id.toList)] := by
    show parseQueryString ("v".toList ++ '=' :: id.toList) = _
    rw [parseQueryString_single _ _ (by decide) hidAmp, percentDecode_no_percent hidPct]
  have ht1 : parseQueryString "t=1".toList = [("t".toList, "1".toList)] := by decide
  have hupd : updateQuery [("v".toList, id.toList)] [("t".toList, "1".toList)] =
      [("v".toList, id.toList), ("t".toList, "1".toList)] := by
    simp [updateQuery, lookupQ, List.find?]
  have hlk : lookupQ [("v".toList, id.toList), ("t".toList, "1".toList)]
      "v".toList = some id.toList := by
    simp [lookupQ]
  have hyt : normalise_youtube_link ("https://youtu.be/" ++ id ++ "?t=1") =
      some (youtubeCanonical id) := by
    unfold normalise_youtube_link
    rw [hrw, hparse, show NORM_FUEL = 14 + 1 + 1 from rfl, houter 14, hpq, ht1,
      hupd, normYT_url_watchquery 14 _ _ _ _ (Or.inr rfl) (by decide) hlk]
    simp only [Option.map_some']
    exact congrArg some (canonical_mk id hsafe)
  simp [normalise_video_link, hyt]

theorem shape_oembed (id : String) (h : isSafeId id = true) :
    normalise_video_link
        ("https://www.youtube.com/oembed?url=http%3A//www.youtube.com/watch?v%3D" ++ id ++
          "&format=json") =
      some (youtubeCanonical id) := by
  obtain ⟨hneL, hsafe, hidSlash, hid3, hidAmp, hidPct, hidHash⟩ := safeId_unpack id h
  have hrw : ("https://www.youtube.com/oembed?url=http%3A//www.youtube.com/watch?v%3D" ++ id ++
      "&format=json").toList =
      "https".toList ++ ':' :: '/' :: '/' ::
        ("www.youtube.com".toList ++ '/' ::
          ("oembed".toList ++ '?' ::
            ("url".toList ++ '=' ::
              (("http%3A//www.youtube.com/watch?v%3D".toList ++ id.toList) ++
                '&' :: "format=json".toList)))) := by
    show ("https://www.youtube.com/oembed?url=http%3A//www.youtube.com/watch?v%3D" ++ id ++
      "&format=json").data = _
    rw [String.data_append, String.data_append]
    rfl
  have hqsafe : ("url".toList ++ '=' ::
      (("http%3A//www.youtube.com/watch?v%3D".toList ++ id.toList) ++
        '&' :: "format=json".toList)).all (fun c => !(c = '#')) = true := by
    simp only [List.all_append, List.all_cons, Bool.and_eq_true]
    exact ⟨by decide, by decide, ⟨by decide, hidHash⟩, by decide, by decide⟩
  have hparse := parseUrl_split_q "https".toList "www.youtube.com".toList
    "oembed".toList
    ("url".toList ++ '=' ::
      (("http%3A//www.youtube.com/watch?v%3D".toList ++ id.toList) ++
        '&' :: "format=json".toList))
    (by decide) (by decide) (by decide) hqsafe
  have hvAmp : (("http%3A//www.youtube.com/watch?v%3D".toList ++ id.toList)).all
      (fun c => !(c = '&')) = true := by
    simp only [List.all_append, Bool.and_eq_true]
    exact ⟨by decide, hidAmp⟩
  have hdec : percentDecode ("http%3A//www.youtube.com/watch?v%3D".toList ++ id.toList) =
      "http://www.youtube.com/watch?v=".toList ++ percentDecode id.toList := rfl
  have hq : parseQueryString ("url".toList ++ '=' ::
      (("http%3A//www.youtube.com/watch?v%3D".toList ++ id.toList) ++
        '&' :: "format=json".toList)) =
      [("url".toList, "http://www.youtube.com/watch?v=".toList ++ id.toList),
       ("format".toList, "json".toList)] := by
    rw [parseQueryString_pair _ _ _ (by decide) hvAmp (by decide), hdec,
      percentDecode_no_percent hidPct,
      show parseQueryString "format=json".toList =
        [("format".toList, "json".toList)] from by decide]
  have houter : ∀ fuel : Nat, normYoutubeUrl (fuel + 1)
      { scheme := "https".toList, host := List.map Char.toLower "www.youtube.com".toList,
        path := '/' :: "oembed".toList,
        query := [("url".toList, "http://www.youtube.com/watch?v=".toList ++ id.toList),
                  ("format".toList, "json".toList)],
        fragment := [] } =
      normYoutubeUrl fuel
        (parseUrlChars ("http://www.youtube.com/watch?v=".toList ++ id.toList)) :=
    fun _ => rfl
  have hrwInner : ("http://www.youtube.com/watch?v=".toList ++ id.toList) =
      "http".toList ++ ':' :: '/' :: '/' ::
        ("www.youtube.com".toList ++ '/' ::
          ("watch".toList ++ '?' :: ("v".toList ++ '=' :: id.toList))) := rfl
  have hqsInner : ("v".toList ++ '=' :: id.toList).all (fun c => !(c = '#')) = true := by
    simp only [List.all_append, List.all_cons, Bool.and_eq_true]
    exact ⟨by decide, by decide, hidHash⟩
  have hparseInner := parseUrl_split_q "http".toList "www.youtube.com".toList
    "watch".toList ("v".toList ++ '=' :: id.toList)
    (by decide) (by decide) (by decide) hqsInner
  have hqInner : parseQueryString ("v".toList ++ '=' :: id.toList) =
      [("v".toList, id.toList)] := by
    rw [parseQueryString_single _ _ (by decide) hidAmp, percentDecode_no_percent hidPct]
  have hlk : lookupQ [("v".toList, id.toList)] "v".toList = some id.toList := by
    simp [lookupQ]
  have hyt : normalise_youtube_link
      ("https://www.youtube.com/oembed?url=http%3A//www.youtube.com/watch?v%3D" ++ id ++
        "&format=json") = some (youtubeCanonical id) := by
    unfold normalise_youtube_link
    rw [hrw, hparse, hq, show NORM_FUEL = 14 + 1 + 1 from rfl, houter (14 + 1),
      hrwInner, hparseInner, hqInner,
      normYT_url_watchquery 14 _ _ _ _ (Or.inl rfl) (by decide) hlk]
    simp only [Option.map_some']
    exact congrArg some (canonical_mk id hsafe)
  simp [normalise_video_link, hyt]

theorem shape_attribution (id : String) (h : isSafeId id = true) :
    normalise_video_link
        ("https://www.youtube.com/attribution_link?a=8g8kPrPIi-ecwIsS&u=/watch%3Fv%3D" ++ id ++
          "%26feature%3Dem-uploademail") = none := by
  obtain ⟨hneL, hsafe, hidSlash, hid3, hidAmp, hidPct, hidHash⟩ := safeId_unpack id h
  have hrw : ("https://www.youtube.com/attribution_link?a=8g8kPrPIi-ecwIsS&u=/watch%3Fv%3D" ++ id ++
      "%26feature%3Dem-uploademail").toList =
      "https".toList ++ ':' :: '/' :: '/' ::
        ("www.youtube.com".toList ++ '/' ::
          ("attribution_link".toList ++ '?' ::
            ("a=8g8kPrPIi-ecwIsS&u=/watch%3Fv%3D".toList ++
              (id.toList ++ "%26feature%3Dem-uploademail".toList)))) := by
    show ("https://www.youtube.com/attribution_link?a=8g8kPrPIi-ecwIsS&u=/watch%3Fv%3D" ++ id ++
      "%26feature%3Dem-uploademail").data = _
    rw [String.data_append, String.data_append]
    rfl
  have hqsafe : ("a=8g8kPrPIi-ecwIsS&u=/watch%3Fv%3D".toList ++
      (id.toList ++ "%26feature%3Dem-uploademail".toList)).all
      (fun c => !(c = '#')) = true := by
    simp only [List.all_append, Bool.and_eq_true]
    exact ⟨by decide, hidHash, by decide⟩
  have hparse := parseUrl_split_q "https".toList "www.youtube.com".toList
    "attribution_link".toList
    ("a=8g8kPrPIi-ecwIsS&u=/watch%3Fv%3D".toList ++
      (id.toList ++ "%26feature%3Dem-uploademail".toList))
    (by decide) (by decide) (by decide) hqsafe
  have hstep : ∀ fuel : Nat, ∀ q : List (Chars × Chars), normYoutubeUrl (fuel + 1)
      { scheme := "https".toList, host := List.map Char.toLower "www.youtube.com".toList,
        path := '/' :: "attribution_link".toList, query := q, fragment := [] } =
      none := fun _ _ => rfl
  have hyt : normalise_youtube_link
      ("https://www.youtube.com/attribution_link?a=8g8kPrPIi-ecwIsS&u=/watch%3Fv%3D" ++ id ++
        "%26feature%3Dem-uploademail") = none := by
    unfold normalise_youtube_link
    rw [hrw, hparse, show NORM_FUEL = 15 + 1 from rfl, hstep 15]
    rfl
  unfold normalise_video_link
  rw [hyt, hrw, hparse]
  rfl

/-- C7: for every safe video id, every shape of the fixed YouTube corpus
(watch/embed/v/e/live/shorts path forms, oembed wrapping, and the youtu.be
short link with and without `?` before trailing parameters) canonicalises
to exactly `https://youtube.com/watch?v=` followed by the id, while the
attribution_link shape yields none. -/
theorem c7_corpus (id : String) (h : isSafeId id = true) :
    (∀ href ∈ youtubeCorpus id, normalise_video_link href = some (youtubeCanonical id)) ∧
    normalise_video_link (attributionShape id) = none := by
  refine ⟨?_, shape_attribution id h⟩
  intro href hmem
  simp only [youtubeCorpus, List.mem_cons, List.not_mem_nil, or_false] at hmem
  rcases hmem with rfl | rfl | rfl | rfl | rfl | rfl | rfl | rfl | rfl | rfl | rfl | rfl | rfl | rfl
  · exact shape_watch_query id h
  · exact shape_watch_query_extra id h
  · exact shape_watch_query_second id h
  · exact shape_watch_path id h
  · exact shape_embed_path id h
  · exact shape_embed_path_query id h
  · exact shape_v_path id h
  · exact shape_e_path id h
  · exact shape_live_path id h
  · exact shape_shorts_path_query id h
  · exact shape_oembed id h
  · exact shape_youtube_short id h
  · exact shape_youtube_short_amp id h
  · exact shape_youtube_short_query id h

theorem c7_corpus_witness :
    isSafeId "dQw4w9WgXcQ" = true ∧
    normalise_video_link "https://youtu.be/dQw4w9WgXcQ" =
      some (youtubeCanonical "dQw4w9WgXcQ") := by
  refine ⟨by decide, ?_⟩
  exact (c7_corpus "dQw4w9WgXcQ" (by decide)).1 "https://youtu.be/dQw4w9WgXcQ" (by decide)

theorem endsWithChars_append (X S : Chars) : endsWithChars (X ++ S) S = true := by
  unfold endsWithChars
  rw [List.reverse_append]
  exact isPrefixOf_append_self

/-- C10: host recognition is a raw suffix check: for every alphanumeric
non-empty prefix glued directly onto `youtube.com` (such as
`evilyoutube.com`), a watch URL on that host is still canonicalised; the
second conjunct shows the concrete host `notyoutu.be` being treated as
YouTube. -/
theorem c10_suffix_host (hp id : String)
    (_hne : hp ≠ "") (hhp : hp.toList.all Char.isAlphanum = true)
    (hid : isSafeId id = true) :
    normalise_youtube_link ("https://" ++ hp ++ "youtube.com/watch?v=" ++ id) =
      some (youtubeCanonical id) ∧
    normalise_youtube_link "https://notyoutu.be/xyz987" =
      some "https://youtube.com/watch?v=xyz987" := by
  refine ⟨?_, by decide⟩
  obtain ⟨hneL, hsafe, hidSlash, hid3, hidAmp, hidPct, hidHash⟩ := safeId_unpack id hid
  have hhpTok : hp.toList.all urlTokenChar = true :=
    all_mono (fun c hc => by simp [urlTokenChar, hc]) hhp
  have hrw : ("https://" ++ hp ++ "youtube.com/watch?v=" ++ id).toList =
      "https".toList ++ ':' :: '/' :: '/' ::
        ((hp.toList ++ "youtube.com".toList) ++ '/' ::
          ("watch".toList ++ '?' :: ("v".toList ++ '=' :: id.toList))) := by
    show ("https://" ++ hp ++ "youtube.com/watch?v=" ++ id).data = _
    rw [String.data_append, String.data_append, String.data_append]
    simp only [List.append_assoc]
    rfl
  have hqs : ("v".toList ++ '=' :: id.toList).all (fun c => !(c = '#')) = true := by
    simp only [List.all_append, List.all_cons, Bool.and_eq_true]
    exact ⟨by decide, by decide, hidHash⟩
  have hH : (hp.toList ++ "youtube.com".toList).all urlTokenChar = true := by
    simp only [List.all_append, Bool.and_eq_true]
    exact ⟨hhpTok, by decide⟩
  have hparse := parseUrl_split_q "https".toList (hp.toList ++ "youtube.com".toList)
    "watch".toList ("v".toList ++ '=' :: id.toList) (by decide) hH (by decide) hqs
  have hq : parseQueryString ("v".toList ++ '=' :: id.toList) =
      [("v".toList, id.toList)] := by
    rw [parseQueryString_single _ _ (by decide) hidAmp, percentDecode_no_percent hidPct]
  have hlk : lookupQ [("v".toList, id.toList)] "v".toList = some id.toList := by
    simp [lookupQ]
  have hmap : List.map Char.toLower (hp.toList ++ "youtube.com".toList) =
      List.map Char.toLower hp.toList ++ "youtube.com".toList := by
    rw [List.map_append]
    rfl
  have hdom : (YOUTUBE_DOMAINS.any fun d =>
      endsWithChars (List.map Char.toLower (hp.toList ++ "youtube.com".toList)) d) = true := by
    rw [hmap]
    simp only [YOUTUBE_DOMAINS, List.map_cons, List.map_nil, List.any_cons, List.any_nil,
      Bool.or_eq_true]
    exact Or.inl (endsWithChars_append _ _)
  unfold normalise_youtube_link
  rw [hrw, hparse, hq, show NORM_FUEL = 15 + 1 from rfl,
    normYT_url_watchquery 15 _ _ _ _ (Or.inr rfl) hdom hlk]
  simp only [Option.map_some']
  exact congrArg some (canonical_mk id hsafe)

theorem renderSpans_rawText (cbs : Callbacks) (st : RState) (ys : List String) :
    renderSpans cbs st (ys.map Span.rawText) = .ok (st, ys) := by
  induction ys with
  | nil => rfl
  | cons y t ih => simp [renderSpans, renderSpan, ih]

/-- C2: a document of an exclude directive, one paragraph, an include
directive and a second paragraph renders to exactly the second paragraph's
lines, for every pair of paragraph contents and every sufficient fuel: the
excluded block contributes zero characters. -/
theorem c2_exclude_include_roundtrip (fuel : Nat) (xs ys : List String) :
    renderDocument {} {} (fuel + 5) initState (c2Doc xs ys) =
      .ok (initState, fragmentsToLines ys) := by
  simp [renderDocument, maybeRender, renderBlocks, renderBlock, renderDirective,
    renderSpans_rawText, suppressTok, initState, c2Doc, List.erase]

/-- C1 (amended): while the suppression set is non-empty, rendering any
wrapped block emits empty output and erases only that block's own token id
from the set.  The set is not cleared wholesale, so when the erased id is
not the marked one, suppression persists across later siblings: the
exclude directive's effect is not one-shot. -/
theorem c1_suppression_skip_erase (cfg : Config) (cbs : Callbacks) (fuel : Nat)
    (st : RState) (pid : Nat) (b : Block) (hw : b.isWrapped = true)
    (hs : st.suppressed ≠ []) :
    renderBlock cfg cbs fuel st pid b =
      .ok ({ st with suppressed := st.suppressed.erase b.tokenId }, []) := by
  cases b <;> simp [Block.isWrapped] at hw <;> cases fuel <;>
    simp [renderBlock, maybeRender, hs, Block.tokenId]

/-- C1 (counterexample to the original claim): in a document holding an
exclude directive followed by two sibling paragraphs, both paragraphs are
suppressed and the whole render emits no output, refuting the claim that
blocks after the first suppressed sibling render normally.  The second
conjunct shows the marked id surviving the suppressed render of a
different block. -/
theorem c1_counterexample :
    renderDocument {} {} 10 initState oneShotDoc = .ok (initState, []) ∧
    renderBlock {} {} 5 { suppressed := [0], previews := [] } 0
        (.paragraph 4 [.rawText "two"]) =
      .ok ({ suppressed := [0], previews := [] }, []) := by
  exact ⟨by decide, by decide⟩

/-- C3 (code bug): a changelog directive without a `heading` attribute does
not render successfully; `item.attrs` is indexed with the heading key before the
membership guard runs, so rendering raises `KeyError`.  With a
heading and an item limit the heading paragraph and truncated list do
render, per the second conjunct. -/
theorem c3_changelog_heading_keyerror :
    get_asset_description changelogCfg none none c3NoHeadingDoc =
      .error (.keyError "heading") ∧
    get_asset_description changelogCfg none none c3HeadingDoc =
      .ok ("Changelog:\n- item1\n- item2\n", []) := by
  exact ⟨by decide, by decide⟩

/-- C4: when the configured changelog document has no list among its
top-level children, a changelog directive fails with the dedicated error,
which propagates out of `get_asset_description` so the caller receives no
partial description. -/
theorem c4_no_list_error_propagates (cfg : Config) (pi pl : Option (String → String))
    (hex : cfg.changelogExists = true)
    (hnl : firstList cfg.changelogDoc = none) :
    get_asset_description cfg pi pl c4Doc = .error .gdAssetChangelogNoList := by
  simp [get_asset_description, renderDocument, maybeRender, renderBlocks, renderBlock,
    renderSpans, renderSpan, initState, c4Doc, RENDER_FUEL, renderDirective, hex, hnl,
    fragmentsToLines, linesOf, splitOnChar]

/-- C5: on a README of one paragraph, one image link and one bare YouTube
watch URL with a tracking query parameter, `get_asset_description` returns
the paragraph text alone plus two previews in document order: the image
preview and the canonicalised video preview. -/
theorem c5_end_to_end :
    get_asset_description {} none none c5Doc =
      .ok ("Hello world.\n\n\n",
        [{ ptype := "image", link := "image.png" },
         { ptype := "video", link := "https://youtube.com/watch?v=dQw4w9WgXcQ" }]) := by
  decide

/-- C6 (code bug): the extended autolink matcher raises `AttributeError`
on a candidate with a trailing HTML entity (`cand.search` is called on a
`str`), instead of returning normally; and its parenthesis balancing
(which sums -1 for both bracket kinds) truncates a URL with balanced
parentheses. -/
theorem c6_autolink_crash :
    extendedAutoLinkFind "http://example.com/x&amp;" =
      .error (.attributeError "str object has no attribute search") ∧
    extendedAutoLinkFind "http://foo.com/(bar)" =
      .ok [{ start := 0, stop := 18, content := "http://foo.com/(ba" }] := by
  exact ⟨by decide, by decide⟩

/-- C8 (counterexample to the original claim): a path ending in
`.mp4.txt` has final extension `.txt`, outside the video set, yet the
link is returned unchanged because `.mp4` is among the path's suffixes. -/
theorem c8_counterexample :
    normalise_video_link "http://example.com/video.mp4.txt" =
      some "http://example.com/video.mp4.txt" := by
  decide

/-- C9 (counterexample to the original claim): an image whose src is
already an absolute URL is still rewritten by the supplied
`prep_image_func`, contradicting that absolute targets are recorded
unchanged. -/
theorem c9_counterexample :
    get_asset_description {} (some (fun _ => "REWRITTEN")) none c9Doc =
      .ok ("", [{ ptype := "image", link := "REWRITTEN" }]) ∧
    "REWRITTEN" ≠ "http://example.com/a.png" := by
  exact ⟨by decide, by decide⟩

/-- C9 (amended): `get_asset_description` never calls `prep_link_func`
(the output is independent of it), and `prep_image_func` is applied to
every image src unconditionally, absolute or not. -/
theorem c9_amended :
    (∀ (cfg : Config) (f : Option (String → String)) (g g' : Option (String → String))
        (doc : Document),
      get_asset_description cfg f g doc = get_asset_description cfg f g' doc) ∧
    (∀ (f : String → String) (src : String) (alt : List Span),
      get_asset_description {} (some f) none
          { id := 0, children := [.paragraph 1 [.image src alt]] } =
        .ok ("", [{ ptype := "image", link := f src }])) := by
  constructor
  · intro cfg f g g' doc
    rfl
  · intro f src alt
    simp [get_asset_description, renderDocument, maybeRender, renderBlocks, renderBlock,
      renderSpans, renderSpan, delegatedSpan, initState, RENDER_FUEL,
      fragmentsToLines, linesOf, splitOnChar, renderToString, String.join]

/-- C8 (amended): for an href not handled by YouTube canonicalisation,
`normalise_video_link` returns the href unchanged exactly when the path is
non-empty and ANY dot-suffix of the last path segment (not only the final
extension) is in the video-extension set, and returns none otherwise. -/
theorem c8_amended_thm (href : String) (h : normalise_youtube_link href = none) :
    (normalise_video_link href = some href ∨ normalise_video_link href = none) ∧
    (normalise_video_link href = some href ↔
      (parseUrlChars href.toList).path ≠ [] ∧
        ∃ s ∈ urlSuffixes (parseUrlChars href.toList), s ∈ VIDEO_EXTS) := by
  have key : (((urlSuffixes (parseUrlChars href.toList)).any
        fun s => VIDEO_EXTS.contains s) = true) ↔
      ∃ s ∈ urlSuffixes (parseUrlChars href.toList), s ∈ VIDEO_EXTS := by
    simp [List.any_eq_true]
  unfold normalise_video_link
  rw [h]
  by_cases hc : (parseUrlChars href.toList).path ≠ [] ∧
      ((urlSuffixes (parseUrlChars href.toList)).any fun s => VIDEO_EXTS.contains s) = true
  · rw [if_pos hc]
    exact ⟨Or.inl rfl, iff_of_true rfl ⟨hc.1, key.mp hc.2⟩⟩
  · rw [if_neg hc]
    refine ⟨Or.inr rfl, iff_of_false (by simp) ?_⟩
    intro hx
    exact hc ⟨hx.1, key.mpr hx.2⟩

theorem c8_amended_witness :
    normalise_youtube_link "http://example.com/clip.webm" = none ∧
    normalise_video_link "http://example.com/clip.webm" =
      some "http://example.com/clip.webm" := by
  have h : normalise_youtube_link "http://example.com/clip.webm" = none := by decide
  refine ⟨h, ?_⟩
  exact (c8_amended_thm "http://example.com/clip.webm" h).2.mpr
    ⟨by decide, ".webm".toList, by decide, by decide⟩

theorem c1_suppression_skip_erase_witness :
    renderBlock {} {} 3 { suppressed := [5], previews := [] } 0
        (.paragraph 7 [.rawText "x"]) =
      .ok ({ suppressed := [5], previews := [] }, []) :=
  c1_suppression_skip_erase {} {} 3 { suppressed := [5], previews := [] } 0
    (.paragraph 7 [.rawText "x"]) (by decide) (by decide)

theorem c4_no_list_witness :
    get_asset_description noListCfg none none c4Doc =
      .error .gdAssetChangelogNoList :=
  c4_no_list_error_propagates noListCfg none none (by decide) rfl

theorem c10_suffix_host_witness :
    normalise_youtube_link ("https://" ++ "evil" ++ "youtube.com/watch?v=" ++ "abc123") =
      some (youtubeCanonical "abc123") ∧
    normalise_youtube_link "https://notyoutu.be/xyz987" =
      some "https://youtube.com/watch?v=xyz987" :=
  c10_suffix_host "evil" "abc123" (by decide) (by decide) (by decide)

end Gdau
